import Mathlib

/-
  Verification development for the assessment-validation pipeline
  (question extraction, mapping, coverage analysis).

  Text is modelled as `List Char` (Python `str` indexing is by code point,
  which matches `List Char`).  Python regular expressions used by the code
  are simple anchored patterns; each is hand-translated into a recursive
  scanner next to the definition that uses it.  Python `\s` / `str.strip`
  are modelled by `Char.isWhitespace`, `\d` / `str.isdigit` by
  `Char.isDigit`, and `\w` by `Char.isAlphanum || c = '_'` (the exotic
  Unicode corners of Python's classes are outside the inputs considered
  here).
-/

abbrev Str := List Char

def litStr (x : String) : Str := x.data

/-- Model of Python `str.strip()`: drop whitespace from both ends. -/
def pstrip (s : Str) : Str :=
  ((s.dropWhile Char.isWhitespace).reverse.dropWhile Char.isWhitespace).reverse

/-- Model of Python `str.lower()` (ASCII case folding, as used by the code
    on its keyword lists). -/
def plower (s : Str) : Str := s.map Char.toLower

/-- Whether `pat` occurs as a contiguous substring of `s`
    (Python `pat in s`). -/
def containsSub (pat s : Str) : Bool :=
  if pat.isPrefixOf s then true
  else
    match s with
    | [] => false
    | _ :: rest => containsSub pat rest

/- ===================================================================
   C4.  MappingAgent._clean_mapping_ids (mapping_agent.py 476-582)
   =================================================================== -/

/-- Embeds the `while id.startswith(dup): id = id[k:]` loops of
    `_clean_mapping_ids`, where the duplicated marker is the prefix
    `c :: cs` doubled and each iteration removes one copy of it
    (`[1:]` for `E`, `[2:]` for `PC`/`PE`/`KE`). -/
def stripDup (c : Char) (cs s : Str) : Str :=
  if h : ((c :: cs) ++ (c :: cs)).isPrefixOf s then
    stripDup c cs (s.drop (cs.length + 1))
  else s
termination_by s.length
decreasing_by
  have hp : ((c :: cs) ++ (c :: cs)) <+: s := List.isPrefixOf_iff_prefix.mp h
  have hl := hp.length_le
  simp only [List.length_append, List.length_cons] at hl
  simp only [List.length_drop]
  omega

/-- Embeds one id-cleanup block of `MappingAgent._clean_mapping_ids` for the
    component prefix `c :: cs` (`E`, `PC`, `PE` or `KE`): collapse duplicated
    prefixes, ensure the prefix is present, ensure a digit follows it. -/
def fixComponentId (c : Char) (cs s : Str) : Str :=
  let p := c :: cs
  let s1 := stripDup c cs s
  let s2 := if p.isPrefixOf s1 then s1 else p ++ s1
  if (s2.drop p.length).any Char.isDigit then s2 else s2 ++ ['1']

def cleanElementIdStr (s : Str) : Str := fixComponentId 'E' [] s
def cleanCriterionIdStr (s : Str) : Str := fixComponentId 'P' ['C'] s
def cleanPerfEvidenceIdStr (s : Str) : Str := fixComponentId 'P' ['E'] s
def cleanKnowEvidenceIdStr (s : Str) : Str := fixComponentId 'K' ['E'] s

/-- One entry of `mapping_analysis['mapped_elements']` (only the dict keys
    the modelled code reads or writes; an absent key is `none`). -/
structure ElemItem where
  element_id : Option Str
  element_code : Option Str
  element_description : Option Str
  confidence_score : Option ℚ
deriving DecidableEq

/-- One entry of `mapping_analysis['mapped_performance_criteria']`. -/
structure CritItem where
  criterion_id : Option Str
  criterion_code : Option Str
  criterion_description : Option Str
  confidence_score : Option ℚ
deriving DecidableEq

/-- One entry of `mapping_analysis['mapped_performance_evidence']`. -/
structure PEItem where
  evidence_id : Option Str
  evidence_code : Option Str
  evidence_description : Option Str
  confidence_score : Option ℚ
deriving DecidableEq

/-- One entry of `mapping_analysis['mapped_knowledge_evidence']` (this list's
    items carry both an `evidence_id` and an optional `knowledge_id`). -/
structure KEItem where
  evidence_id : Option Str
  evidence_code : Option Str
  knowledge_id : Option Str
  knowledge_code : Option Str
  evidence_description : Option Str
  confidence_score : Option ℚ
deriving DecidableEq

/-- The `mapping_analysis` record: the four mapped-item lists. -/
structure MappingAnalysisT where
  mapped_elements : List ElemItem
  mapped_performance_criteria : List CritItem
  mapped_performance_evidence : List PEItem
  mapped_knowledge_evidence : List KEItem
deriving DecidableEq

/-- `_clean_mapping_ids` on one mapped-element item: clean `element_id` when
    the key is present and truthy, writing the result to both `element_id`
    and `element_code`. -/
def cleanElemItem (e : ElemItem) : ElemItem :=
  match e.element_id with
  | none => e
  | some eid =>
    if eid = [] then e
    else
      let c := cleanElementIdStr eid
      { e with element_id := some c, element_code := some c }

/-- `_clean_mapping_ids` on one mapped-performance-criterion item. -/
def cleanCritItem (pc : CritItem) : CritItem :=
  match pc.criterion_id with
  | none => pc
  | some cid =>
    if cid = [] then pc
    else
      let c := cleanCriterionIdStr cid
      { pc with criterion_id := some c, criterion_code := some c }

/-- `_clean_mapping_ids` on one mapped-performance-evidence item. -/
def cleanPEItem (pe : PEItem) : PEItem :=
  match pe.evidence_id with
  | none => pe
  | some eid =>
    if eid = [] then pe
    else
      let c := cleanPerfEvidenceIdStr eid
      { pe with evidence_id := some c, evidence_code := some c }

/-- `_clean_mapping_ids` on one mapped-knowledge-evidence item: first the
    `evidence_id` block, then the `knowledge_id` block. -/
def cleanKEItem (ke : KEItem) : KEItem :=
  let ke1 :=
    match ke.evidence_id with
    | none => ke
    | some eid =>
      if eid = [] then ke
      else
        let c := cleanKnowEvidenceIdStr eid
        { ke with evidence_id := some c, evidence_code := some c }
  match ke1.knowledge_id with
  | none => ke1
  | some kid =>
    if kid = [] then ke1
    else
      let c := cleanKnowEvidenceIdStr kid
      { ke1 with knowledge_id := some c, knowledge_code := some c }

/-- `MappingAgent._clean_mapping_ids`: clean every item of the four lists. -/
def cleanMappingIds (ma : MappingAnalysisT) : MappingAnalysisT :=
  { mapped_elements := ma.mapped_elements.map cleanElemItem
    mapped_performance_criteria := ma.mapped_performance_criteria.map cleanCritItem
    mapped_performance_evidence := ma.mapped_performance_evidence.map cleanPEItem
    mapped_knowledge_evidence := ma.mapped_knowledge_evidence.map cleanKEItem }

/-- Canonical performance-criterion code per the spec grammar `PC<n>.<m>`
    (modelled from the spec's words; used only to state the
    "already-canonical codes are unchanged" part of C4). -/
def isCanonicalPC (s : Str) : Bool :=
  (litStr ("PC")).isPrefixOf s &&
  !((s.drop 2).takeWhile Char.isDigit).isEmpty &&
  (match (s.drop 2).dropWhile Char.isDigit with
   | b :: d2 => b = '.' && !d2.isEmpty && d2.all Char.isDigit
   | [] => false)

/- Helper lemmas for C4. -/

theorem stripDup_no_dup (c : Char) (cs : Str) :
    ∀ s : Str, ((c :: cs) ++ (c :: cs)).isPrefixOf (stripDup c cs s) = false := by
  intro s
  induction s using stripDup.induct c cs with
  | case1 s h ih =>
    rw [stripDup, dif_pos h]
    exact ih
  | case2 s h =>
    rw [stripDup, dif_neg h]
    exact Bool.eq_false_iff.mpr h

theorem stripDup_of_no_dup (c : Char) (cs s : Str)
    (h : ((c :: cs) ++ (c :: cs)).isPrefixOf s = false) :
    stripDup c cs s = s := by
  rw [stripDup, dif_neg]
  intro hc
  rw [h] at hc
  exact Bool.false_ne_true hc

theorem bool_eq_false_of_not (b : Bool) (h : ¬ b = true) : b = false := by
  cases b
  · rfl
  · exact absurd rfl h

/-- The shape every cleaned id has: starts with the prefix, the prefix is not
    duplicated, and a digit occurs after the prefix. -/
def idFixed (c : Char) (cs s : Str) : Bool :=
  (c :: cs).isPrefixOf s && !((c :: cs) ++ (c :: cs)).isPrefixOf s &&
    (s.drop (cs.length + 1)).any Char.isDigit

/-- Packaging helper: `idFixed` holds once its three components do. -/
theorem idFixed_intro (c : Char) (cs x : Str)
    (hA : (c :: cs).isPrefixOf x = true)
    (hB : ((c :: cs) ++ (c :: cs)).isPrefixOf x = false)
    (hC : (x.drop (cs.length + 1)).any Char.isDigit = true) :
    idFixed c cs x = true := by
  unfold idFixed
  rw [hA, hB, hC]
  rfl

theorem fixComponentId_fixed (c : Char) (cs : Str)
    (hnd : (c :: cs).all (fun ch => !ch.isDigit) = true) (s : Str) :
    idFixed c cs (fixComponentId c cs s) = true := by
  have hone : ('1' : Char) ∉ c :: cs := by
    intro hmem
    rw [List.all_eq_true] at hnd
    have h1 := hnd '1' hmem
    simp at h1
  have hnodup : ((c :: cs) ++ (c :: cs)).isPrefixOf (stripDup c cs s) = false :=
    stripDup_no_dup c cs s
  by_cases h1 : (c :: cs).isPrefixOf (stripDup c cs s) = true
  · by_cases h2 : ((stripDup c cs s).drop (cs.length + 1)).any Char.isDigit = true
    · have hres : fixComponentId c cs s = stripDup c cs s := by
        simp only [fixComponentId, List.length_cons]
        rw [if_pos h1, if_pos h2]
      rw [hres]
      exact idFixed_intro c cs _ h1 hnodup h2
    · have hres : fixComponentId c cs s = stripDup c cs s ++ ['1'] := by
        simp only [fixComponentId, List.length_cons]
        rw [if_pos h1, if_neg h2]
      rw [hres]
      have hlen : cs.length + 1 ≤ (stripDup c cs s).length := by
        have hll := (List.isPrefixOf_iff_prefix.mp h1).length_le
        simpa using hll
      refine idFixed_intro c cs _ ?_ ?_ ?_
      · rw [List.isPrefixOf_iff_prefix]
        exact (List.isPrefixOf_iff_prefix.mp h1).trans (List.prefix_append _ _)
      · refine bool_eq_false_of_not _ ?_
        intro hcon
        rw [List.isPrefixOf_iff_prefix] at hcon
        rcases List.prefix_concat_iff.mp hcon with heq | hpre
        · have hm : ('1' : Char) ∈ (c :: cs) ++ (c :: cs) := by
            rw [heq]
            simp
          rcases List.mem_append.mp hm with hm2 | hm2 <;> exact hone hm2
        · rw [← List.isPrefixOf_iff_prefix] at hpre
          rw [hnodup] at hpre
          exact Bool.false_ne_true hpre
      · rw [List.drop_append_of_le_length hlen]
        simp
  · have h1f : (c :: cs).isPrefixOf (stripDup c cs s) = false :=
      bool_eq_false_of_not _ h1
    have hdrop : ((c :: cs) ++ stripDup c cs s).drop (cs.length + 1)
        = stripDup c cs s := by
      have hlc : cs.length + 1 = (c :: cs).length := by simp
      rw [hlc, List.drop_left]
    have hnd2 : ((c :: cs) ++ (c :: cs)).isPrefixOf ((c :: cs) ++ stripDup c cs s)
        = false := by
      refine bool_eq_false_of_not _ ?_
      intro hcon
      rw [List.isPrefixOf_iff_prefix, List.prefix_append_right_inj,
        ← List.isPrefixOf_iff_prefix] at hcon
      exact h1 hcon
    by_cases h2 : ((stripDup c cs s)).any Char.isDigit = true
    · have hres : fixComponentId c cs s = (c :: cs) ++ stripDup c cs s := by
        simp only [fixComponentId, List.length_cons]
        rw [if_neg h1, if_pos (by rw [hdrop]; exact h2)]
      rw [hres]
      refine idFixed_intro c cs _ ?_ hnd2 ?_
      · rw [List.isPrefixOf_iff_prefix]
        exact List.prefix_append _ _
      · rw [hdrop]
        exact h2
    · have hres : fixComponentId c cs s = ((c :: cs) ++ stripDup c cs s) ++ ['1'] := by
        simp only [fixComponentId, List.length_cons]
        rw [if_neg h1, if_neg (by rw [hdrop]; exact h2)]
      rw [hres]
      refine idFixed_intro c cs _ ?_ ?_ ?_
      · rw [List.isPrefixOf_iff_prefix, List.append_assoc]
        exact List.prefix_append _ _
      · refine bool_eq_false_of_not _ ?_
        intro hcon
        rw [List.isPrefixOf_iff_prefix] at hcon
        rcases List.prefix_concat_iff.mp hcon with heq | hpre
        · rw [List.append_assoc] at heq
          have hcan := List.append_cancel_left heq
          have hm : ('1' : Char) ∈ c :: cs := by
            rw [hcan]
            simp
          exact hone hm
        · rw [← List.isPrefixOf_iff_prefix] at hpre
          rw [hnd2] at hpre
          exact Bool.false_ne_true hpre
      · rw [List.append_assoc]
        have hlc : cs.length + 1 = (c :: cs).length := by simp
        rw [hlc, List.drop_left]
        simp [List.any_append]

theorem fixComponentId_of_fixed (c : Char) (cs s : Str)
    (h : idFixed c cs s = true) :
    fixComponentId c cs s = s := by
  unfold idFixed at h
  simp only [Bool.and_eq_true, Bool.not_eq_eq_eq_not, Bool.not_true] at h
  obtain ⟨⟨hp, hnodup⟩, hdig⟩ := h
  simp only [fixComponentId, List.length_cons]
  rw [stripDup_of_no_dup c cs s hnodup]
  rw [if_pos hp, if_pos hdig]

theorem fixComponentId_idem (c : Char) (cs : Str)
    (hnd : (c :: cs).all (fun ch => !ch.isDigit) = true) (s : Str) :
    fixComponentId c cs (fixComponentId c cs s) = fixComponentId c cs s :=
  fixComponentId_of_fixed c cs _ (fixComponentId_fixed c cs hnd s)

theorem fixComponentId_ne_nil (c : Char) (cs : Str)
    (hnd : (c :: cs).all (fun ch => !ch.isDigit) = true) (s : Str) :
    fixComponentId c cs s ≠ [] := by
  intro hcon
  have := fixComponentId_fixed c cs hnd s
  rw [hcon] at this
  unfold idFixed at this
  simp at this

theorem cleanCritItem_idem (pc : CritItem) :
    cleanCritItem (cleanCritItem pc) = cleanCritItem pc := by
  cases pc with
  | mk cid ccode cdesc conf =>
    cases cid with
    | none => rfl
    | some v =>
      by_cases hv : v = []
      · subst hv
        rfl
      · have hne : cleanCriterionIdStr v ≠ [] :=
          fixComponentId_ne_nil 'P' ['C'] (by decide) v
        have hidem : cleanCriterionIdStr (cleanCriterionIdStr v)
            = cleanCriterionIdStr v :=
          fixComponentId_idem 'P' ['C'] (by decide) v
        simp [cleanCritItem, hv, hne, hidem]

theorem cleanElemItem_idem (e : ElemItem) :
    cleanElemItem (cleanElemItem e) = cleanElemItem e := by
  cases e with
  | mk eid ecode edesc conf =>
    cases eid with
    | none => rfl
    | some v =>
      by_cases hv : v = []
      · subst hv
        rfl
      · have hne : cleanElementIdStr v ≠ [] :=
          fixComponentId_ne_nil 'E' [] (by decide) v
        have hidem : cleanElementIdStr (cleanElementIdStr v) = cleanElementIdStr v :=
          fixComponentId_idem 'E' [] (by decide) v
        simp [cleanElemItem, hv, hne, hidem]

theorem cleanPEItem_idem (pe : PEItem) :
    cleanPEItem (cleanPEItem pe) = cleanPEItem pe := by
  cases pe with
  | mk eid ecode edesc conf =>
    cases eid with
    | none => rfl
    | some v =>
      by_cases hv : v = []
      · subst hv
        rfl
      · have hne : cleanPerfEvidenceIdStr v ≠ [] :=
          fixComponentId_ne_nil 'P' ['E'] (by decide) v
        have hidem : cleanPerfEvidenceIdStr (cleanPerfEvidenceIdStr v)
            = cleanPerfEvidenceIdStr v :=
          fixComponentId_idem 'P' ['E'] (by decide) v
        simp [cleanPEItem, hv, hne, hidem]

theorem cleanKEItem_idem (ke : KEItem) :
    cleanKEItem (cleanKEItem ke) = cleanKEItem ke := by
  cases ke with
  | mk eid ecode kid kcode edesc conf =>
    have hne := fixComponentId_ne_nil 'K' ['E'] (by decide)
    have hidem := fixComponentId_idem 'K' ['E'] (by decide)
    cases eid with
    | none =>
      cases kid with
      | none => rfl
      | some kv =>
        by_cases hkv : kv = []
        · subst hkv
          rfl
        · simp [cleanKEItem, hkv, hne kv, hidem kv, cleanKnowEvidenceIdStr]
    | some v =>
      by_cases hv : v = []
      · subst hv
        cases kid with
        | none => rfl
        | some kv =>
          by_cases hkv : kv = []
          · subst hkv
            rfl
          · simp [cleanKEItem, hkv, hne kv, hidem kv, cleanKnowEvidenceIdStr]
      · cases kid with
        | none =>
          simp [cleanKEItem, hv, hne v, hidem v, cleanKnowEvidenceIdStr]
        | some kv =>
          by_cases hkv : kv = []
          · subst hkv
            simp [cleanKEItem, hv, hne v, hidem v, cleanKnowEvidenceIdStr]
          · simp [cleanKEItem, hv, hkv, hne v, hidem v, hne kv, hidem kv,
              cleanKnowEvidenceIdStr]

theorem cleanMappingIds_idem (ma : MappingAnalysisT) :
    cleanMappingIds (cleanMappingIds ma) = cleanMappingIds ma := by
  unfold cleanMappingIds
  simp only [List.map_map]
  have h1 : ma.mapped_elements.map (cleanElemItem ∘ cleanElemItem)
      = ma.mapped_elements.map cleanElemItem :=
    List.map_congr_left (fun a _ => cleanElemItem_idem a)
  have h2 : ma.mapped_performance_criteria.map (cleanCritItem ∘ cleanCritItem)
      = ma.mapped_performance_criteria.map cleanCritItem :=
    List.map_congr_left (fun a _ => cleanCritItem_idem a)
  have h3 : ma.mapped_performance_evidence.map (cleanPEItem ∘ cleanPEItem)
      = ma.mapped_performance_evidence.map cleanPEItem :=
    List.map_congr_left (fun a _ => cleanPEItem_idem a)
  have h4 : ma.mapped_knowledge_evidence.map (cleanKEItem ∘ cleanKEItem)
      = ma.mapped_knowledge_evidence.map cleanKEItem :=
    List.map_congr_left (fun a _ => cleanKEItem_idem a)
  rw [h1, h2, h3, h4]

theorem cleanCriterionIdStr_canonical (s : Str) (h : isCanonicalPC s = true) :
    cleanCriterionIdStr s = s := by
  unfold isCanonicalPC at h
  simp only [Bool.and_eq_true] at h
  obtain ⟨⟨hpre, hd1⟩, _⟩ := h
  have hpc : litStr ("PC") = ['P', 'C'] := rfl
  rw [hpc] at hpre
  obtain ⟨t, ht⟩ := List.isPrefixOf_iff_prefix.mp hpre
  have hdrop : s.drop 2 = t := by
    rw [← ht]
    have h2 : (2 : Nat) = (['P', 'C'] : Str).length := rfl
    rw [h2, List.drop_left]
  rw [hdrop] at hd1
  have hdigit : ∃ d t2, t = d :: t2 ∧ d.isDigit = true := by
    cases t with
    | nil => simp at hd1
    | cons d t2 =>
      refine ⟨d, t2, rfl, ?_⟩
      rw [List.takeWhile_cons] at hd1
      by_cases hd : d.isDigit = true
      · exact hd
      · rw [if_neg hd] at hd1
        simp at hd1
  obtain ⟨d, t2, htt, hdd⟩ := hdigit
  refine fixComponentId_of_fixed 'P' ['C'] s (idFixed_intro _ _ _ hpre ?_ ?_)
  · refine bool_eq_false_of_not _ ?_
    intro hcon
    rw [List.isPrefixOf_iff_prefix, ← ht, List.prefix_append_right_inj] at hcon
    rw [htt] at hcon
    rcases List.cons_prefix_cons.mp hcon with ⟨hPd, _⟩
    rw [← hPd] at hdd
    simp at hdd
  · have h21 : (['C'] : Str).length + 1 = 2 := rfl
    rw [h21, hdrop, htt]
    simp [hdd]

/-- C4: Component-code normalization (`_clean_mapping_ids`) is idempotent:
    applying it twice to a mapping-analysis record, or twice to any single
    mapped item of any of the four kinds, equals applying it once; an
    already-canonical criterion code (grammar `PC<n>.<m>`) is returned
    unchanged; and on the concrete inputs, criterion id "PCPC1.1"
    normalizes to "PC1.1" and criterion id "1.1" normalizes to "PC1.1". -/
theorem c4_clean_mapping_ids_idempotent :
    (∀ ma : MappingAnalysisT, cleanMappingIds (cleanMappingIds ma) = cleanMappingIds ma) ∧
    (∀ e : ElemItem, cleanElemItem (cleanElemItem e) = cleanElemItem e) ∧
    (∀ pc : CritItem, cleanCritItem (cleanCritItem pc) = cleanCritItem pc) ∧
    (∀ pe : PEItem, cleanPEItem (cleanPEItem pe) = cleanPEItem pe) ∧
    (∀ ke : KEItem, cleanKEItem (cleanKEItem ke) = cleanKEItem ke) ∧
    (∀ s : Str, isCanonicalPC s = true → cleanCriterionIdStr s = s) ∧
    cleanCriterionIdStr (litStr ("PCPC1.1")) = litStr ("PC1.1") ∧
    cleanCriterionIdStr (litStr ("1.1")) = litStr ("PC1.1") := by
  refine ⟨cleanMappingIds_idem, cleanElemItem_idem, cleanCritItem_idem,
    cleanPEItem_idem, cleanKEItem_idem, cleanCriterionIdStr_canonical, ?_, ?_⟩
  · show fixComponentId 'P' ['C'] (litStr ("PCPC1.1")) = litStr ("PC1.1")
    simp only [fixComponentId]
    rw [stripDup, dif_pos (by decide), stripDup, dif_neg (by decide)]
    decide
  · show fixComponentId 'P' ['C'] (litStr ("1.1")) = litStr ("PC1.1")
    simp only [fixComponentId]
    rw [stripDup, dif_neg (by decide)]
    decide

/-- Witness for C4: the canonical-code clause applied at the concrete
    canonical code "PC1.1". -/
theorem c4_clean_mapping_ids_idempotent_witness :
    isCanonicalPC (litStr ("PC1.1")) = true ∧
    cleanCriterionIdStr (litStr ("PC1.1")) = litStr ("PC1.1") :=
  ⟨by decide, c4_clean_mapping_ids_idempotent.2.2.2.2.2.1 (litStr ("PC1.1")) (by decide)⟩

/- ===================================================================
   Typed data layer shared by the mapping/coverage claims.
   =================================================================== -/

/-- One UoC component dict (element / performance criterion / evidence item)
    as consumed by the coverage analyses; only the keys the modelled code
    reads are retained, an absent key is `none`. -/
structure ComponentT where
  id : Option Str
  element_id : Option Str
  code : Option Str
  description : Option Str
deriving DecidableEq

/-- The `uoc_data` dict: the four component lists (plus the identification
    keys, which the modelled functions do not read). -/
structure UocDataT where
  uoc_code : Option Str
  title : Option Str
  elements : List ComponentT
  performance_criteria : List ComponentT
  performance_evidence : List ComponentT
  knowledge_evidence : List ComponentT
deriving DecidableEq

/-- One per-question mapping dict, restricted to the keys read by
    `_analyze_mapping_coverage` and `analyze_coverage_quality`.
    `bloom_primary_level` models `mapping['bloom_taxonomy']['primary_level']`;
    `mapping_analysis = none` models both an absent key and an empty dict. -/
structure MappingT where
  question_id : Option Str
  assessment_type : Option Str
  bloom_primary_level : Option Str
  mapping_analysis : Option MappingAnalysisT
  mapping_source : Option Str
deriving DecidableEq

/-- `mapping.get('mapping_analysis', {})`. -/
def analysisOf (m : MappingT) : MappingAnalysisT :=
  m.mapping_analysis.getD { mapped_elements := [], mapped_performance_criteria := []
                            mapped_performance_evidence := [], mapped_knowledge_evidence := [] }

/-- Python `set.add` on an insertion-ordered list model of a set (only
    membership and cardinality of the result are ever observed). -/
def pySetAdd (l : List Str) (x : Str) : List Str :=
  if x ∈ l then l else l ++ [x]

/- ===================================================================
   C9 (and C1).  MappingAgent._analyze_mapping_coverage
   (mapping_agent.py 821-907) and MappingAgent.execute (20-85)
   =================================================================== -/

/-- Exact-decimal model of Python `round(x, 1)` composed with `* 100`:
    `roundHalfEvenDiv (1000 * mapped) total` is the coverage percentage in
    tenths of a percent, rounding halves to even as Python `round` does.
    (Python computes on binary floats; this model uses exact arithmetic,
    which agrees except on representation-error knife edges.) -/
def roundHalfEvenDiv (num den : Nat) : Nat :=
  let q := num / den
  let r := num % den
  if 2 * r < den then q
  else if den < 2 * r then q + 1
  else if q % 2 = 0 then q else q + 1

/-- `_analyze_mapping_coverage`: the set of `element_id`s collected from
    every mapping's `mapped_elements` (missing ids collect as `''`). -/
def collectMappedElements (mappings : List MappingT) : List Str :=
  mappings.foldl
    (fun acc m => (analysisOf m).mapped_elements.foldl
      (fun a e => pySetAdd a (e.element_id.getD [])) acc) []

/-- `_analyze_mapping_coverage`: collected `criterion_id`s. -/
def collectMappedCriteria (mappings : List MappingT) : List Str :=
  mappings.foldl
    (fun acc m => (analysisOf m).mapped_performance_criteria.foldl
      (fun a e => pySetAdd a (e.criterion_id.getD [])) acc) []

/-- `_analyze_mapping_coverage`: collected performance-evidence ids. -/
def collectMappedPerfEvidence (mappings : List MappingT) : List Str :=
  mappings.foldl
    (fun acc m => (analysisOf m).mapped_performance_evidence.foldl
      (fun a e => pySetAdd a (e.evidence_id.getD [])) acc) []

/-- `_analyze_mapping_coverage`: collected knowledge-evidence ids. -/
def collectMappedKnowEvidence (mappings : List MappingT) : List Str :=
  mappings.foldl
    (fun acc m => (analysisOf m).mapped_knowledge_evidence.foldl
      (fun a e => pySetAdd a (e.evidence_id.getD [])) acc) []

def anyKeywordIn (kws : List Str) (text : Str) : Bool :=
  kws.any (fun k => containsSub k text)

/-- `_assess_component_priority`. -/
def assessComponentPriority (comp : ComponentT) : Str :=
  let d := plower (comp.description.getD [])
  if anyKeywordIn [litStr ("critical"), litStr ("essential"), litStr ("must"),
      litStr ("required"), litStr ("core"), litStr ("fundamental")] d then litStr ("HIGH")
  else if anyKeywordIn [litStr ("important"), litStr ("should"),
      litStr ("necessary"), litStr ("key")] d then litStr ("MEDIUM")
  else litStr ("LOW")

/-- `_generate_suggested_questions`. -/
def generateSuggestedQuestions (comp : ComponentT) : List Str :=
  let d := plower (comp.description.getD [])
  if containsSub (litStr ("performance")) d then
    [litStr ("Practical demonstration question"), litStr ("Scenario-based assessment")]
  else if containsSub (litStr ("knowledge")) d then
    [litStr ("Multiple choice question"), litStr ("Short answer question")]
  else [litStr ("Mixed assessment question")]

/-- One entry of an `unmapped` list built by `_identify_unmapped_components`. -/
structure UnmappedEntry where
  id : Str
  description : Str
  priority : Str
  suggested_questions : List Str
deriving DecidableEq

/-- `_identify_unmapped_components`; `idField` models the `id_field`
    string argument selecting which dict key identifies a component. -/
def identifyUnmappedComponents (components : List ComponentT) (mappedSet : List Str)
    (idField : ComponentT → Option Str) : List UnmappedEntry :=
  components.filterMap (fun comp =>
    let cid := (idField comp).getD []
    if cid ≠ [] ∧ cid ∉ mappedSet then
      some { id := cid, description := comp.description.getD []
             priority := assessComponentPriority comp
             suggested_questions := generateSuggestedQuestions comp }
    else none)

/-- `_is_critical_element`. -/
def isCriticalElement (description : Str) : Bool :=
  anyKeywordIn [litStr ("safety"), litStr ("health"), litStr ("emergency"),
    litStr ("critical"), litStr ("essential"), litStr ("core competency"),
    litStr ("regulatory"), litStr ("compliance"), litStr ("mandatory"),
    litStr ("required skill")] (plower description)

/-- `_determine_criticality_reason`. -/
def determineCriticalityReason (description : Str) : Str :=
  let d := plower description
  if anyKeywordIn [litStr ("safety"), litStr ("health"), litStr ("emergency")] d then
    litStr ("Safety/Health Critical")
  else if anyKeywordIn [litStr ("regulatory"), litStr ("compliance")] d then
    litStr ("Regulatory Compliance")
  else if anyKeywordIn [litStr ("core"), litStr ("essential"), litStr ("fundamental")] d then
    litStr ("Core Competency")
  else litStr ("High Priority Component")

/-- `_calculate_impact_score` (the keyword-weight table in its insertion
    order; the running maximum starts at 0). -/
def calculateImpactScore (description : Str) : ℚ :=
  let d := plower description
  [(litStr ("safety"), (1 : ℚ)), (litStr ("health"), 9/10),
   (litStr ("emergency"), 19/20), (litStr ("critical"), 4/5),
   (litStr ("essential"), 7/10), (litStr ("core"), 3/5),
   (litStr ("regulatory"), 17/20), (litStr ("compliance"), 4/5)].foldl
    (fun acc kv => if containsSub kv.1 d then max acc kv.2 else acc) 0

/-- One entry of a `critical_gaps` list. -/
structure GapEntry where
  component_id : Str
  description : Str
  criticality_reason : Str
  impact_score : ℚ
deriving DecidableEq

/-- `_identify_critical_element_gaps` (reads the `element_id` key). -/
def identifyCriticalElementGaps (elements : List ComponentT) (mappedSet : List Str) :
    List GapEntry :=
  elements.filterMap (fun e =>
    let eid := e.element_id.getD []
    let d := e.description.getD []
    if eid ≠ [] ∧ eid ∉ mappedSet ∧ isCriticalElement d = true then
      some { component_id := eid, description := d
             criticality_reason := determineCriticalityReason d
             impact_score := calculateImpactScore d }
    else none)

/-- `_is_critical_criterion`. -/
def isCriticalCriterion (description : Str) : Bool :=
  anyKeywordIn [litStr ("demonstrate"), litStr ("perform"), litStr ("apply"),
    litStr ("implement"), litStr ("execute"), litStr ("critical"),
    litStr ("essential"), litStr ("core"), litStr ("required"),
    litStr ("mandatory")] (plower description)

/-- `_identify_critical_criteria_gaps` (reads the `code` key). -/
def identifyCriticalCriteriaGaps (criteria : List ComponentT) (mappedSet : List Str) :
    List GapEntry :=
  criteria.filterMap (fun cr =>
    let cid := cr.code.getD []
    let d := cr.description.getD []
    if cid ≠ [] ∧ cid ∉ mappedSet ∧ isCriticalCriterion d = true then
      some { component_id := cid, description := d
             criticality_reason := determineCriticalityReason d
             impact_score := calculateImpactScore d }
    else none)

/-- One per-kind coverage record of `_analyze_mapping_coverage`
    (`critical_gaps` is only present for elements and criteria, hence the
    `Option`). -/
structure KindCoverage where
  mapped : Nat
  total : Nat
  percentage_tenths : Nat
  unmapped : List UnmappedEntry
  critical_gaps : Option (List GapEntry)
deriving DecidableEq

/-- The coverage part of the dict returned by `_analyze_mapping_coverage`.
    The `intelligent_insights` sub-dict (quality/cognitive/risk advice) is
    outside every claim and is not modelled. -/
structure CoverageAnalysisT where
  elements_coverage : KindCoverage
  performance_criteria_coverage : KindCoverage
  performance_evidence_coverage : KindCoverage
  knowledge_evidence_coverage : KindCoverage
deriving DecidableEq

/-- The `percentage` field: `round(mapped/total*100, 1)` when `total > 0`
    else `0`, held in tenths of a percent. -/
def coveragePctTenths (mapped total : Nat) : Nat :=
  if 0 < total then roundHalfEvenDiv (1000 * mapped) total else 0

/-- `MappingAgent._analyze_mapping_coverage` (coverage statistics; the
    single Python collection loop is split into one fold per collected set,
    each folding over the mappings in the same order). -/
def analyzeMappingCoverage (mappings : List MappingT) (uoc : UocDataT) :
    CoverageAnalysisT :=
  let me := collectMappedElements mappings
  let mc := collectMappedCriteria mappings
  let mpe := collectMappedPerfEvidence mappings
  let mke := collectMappedKnowEvidence mappings
  { elements_coverage :=
      { mapped := me.length, total := uoc.elements.length
        percentage_tenths := coveragePctTenths me.length uoc.elements.length
        unmapped := identifyUnmappedComponents uoc.elements me ComponentT.element_id
        critical_gaps := some (identifyCriticalElementGaps uoc.elements me) }
    performance_criteria_coverage :=
      { mapped := mc.length, total := uoc.performance_criteria.length
        percentage_tenths := coveragePctTenths mc.length uoc.performance_criteria.length
        unmapped := identifyUnmappedComponents uoc.performance_criteria mc ComponentT.code
        critical_gaps := some (identifyCriticalCriteriaGaps uoc.performance_criteria mc) }
    performance_evidence_coverage :=
      { mapped := mpe.length, total := uoc.performance_evidence.length
        percentage_tenths := coveragePctTenths mpe.length uoc.performance_evidence.length
        unmapped := identifyUnmappedComponents uoc.performance_evidence mpe ComponentT.code
        critical_gaps := none }
    knowledge_evidence_coverage :=
      { mapped := mke.length, total := uoc.knowledge_evidence.length
        percentage_tenths := coveragePctTenths mke.length uoc.knowledge_evidence.length
        unmapped := identifyUnmappedComponents uoc.knowledge_evidence mke ComponentT.code
        critical_gaps := none } }

/-- The dict returned by `MappingAgent.execute` on success. -/
structure MappingExecResult where
  mappings : List MappingT
  analysis : CoverageAnalysisT
  assessment_type : Str
  total_questions : Nat
deriving DecidableEq

/-- The message of the `RuntimeError` raised when a single question's
    mapping fails. -/
def mapFailMsg : Str :=
  litStr ("LLM mapping failed; mapping cannot proceed without live LLM access")

/-- The message of the `RuntimeError` raised when no API key is set. -/
def noKeyMsg : Str :=
  litStr ("LLM access is required for mapping but no API key was provided")

/-- The per-question loop of `MappingAgent.execute`: each question is mapped
    through `_map_single_question_comprehensive` (abstracted as the `oracle`
    argument, since it wraps a network call; it returns `none` when the
    external reply yields no parseable mapping), a `None` result raises, and
    each success is tagged `mapping_source := 'ai'`. -/
def mapAllQuestions {α : Type} (oracle : α → Option MappingT) :
    List α → Except Str (List MappingT)
  | [] => Except.ok []
  | q :: qs =>
    match oracle q with
    | none => Except.error mapFailMsg
    | some m =>
      match mapAllQuestions oracle qs with
      | Except.error e => Except.error e
      | Except.ok ms =>
        Except.ok ({ m with mapping_source := some (litStr ("ai")) } :: ms)

/-- `MappingAgent.execute`: raises (`Except.error`) when the API key is
    missing or any single mapping fails; otherwise returns the mappings with
    the coverage analysis.  The `except/raise` re-raise at the end of the
    Python function propagates the error unchanged. -/
def mappingAgentExecute {α : Type} (api_key : Str) (oracle : α → Option MappingT)
    (questions : List α) (uoc : UocDataT) (assessment_type : Str) :
    Except Str MappingExecResult :=
  if api_key = [] then Except.error noKeyMsg
  else
    match mapAllQuestions oracle questions with
    | Except.error e => Except.error e
    | Except.ok mappings =>
      Except.ok { mappings := mappings
                  analysis := analyzeMappingCoverage mappings uoc
                  assessment_type := assessment_type
                  total_questions := questions.length }

theorem mapAllQuestions_error {α : Type} (oracle : α → Option MappingT)
    (questions : List α) (q : α) (hq : q ∈ questions) (hfail : oracle q = none) :
    mapAllQuestions oracle questions = Except.error mapFailMsg := by
  induction questions with
  | nil => cases hq
  | cons a t ih =>
    rcases List.mem_cons.mp hq with heq | hmem
    · subst heq
      rw [mapAllQuestions, hfail]
    · rw [mapAllQuestions]
      cases ha : oracle a with
      | none => rfl
      | some m => rw [ih hmem]

/-- C1: under the fail-fast policy, if the external mapping call for any
    single question fails (its `_map_single_question_comprehensive`
    returns `None`), then the whole `MappingAgent.execute` batch call
    raises the fixed `RuntimeError` — so the caller receives no mapping
    list at all, not a partial one. -/
theorem c1_mapping_fail_fast {α : Type} (api_key : Str) (oracle : α → Option MappingT)
    (questions : List α) (uoc : UocDataT) (assessment_type : Str)
    (hkey : api_key ≠ []) (q : α) (hq : q ∈ questions) (hfail : oracle q = none) :
    mappingAgentExecute api_key oracle questions uoc assessment_type
      = Except.error mapFailMsg ∧
    ∀ r : MappingExecResult,
      mappingAgentExecute api_key oracle questions uoc assessment_type ≠ Except.ok r := by
  have hrun : mappingAgentExecute api_key oracle questions uoc assessment_type
      = Except.error mapFailMsg := by
    unfold mappingAgentExecute
    rw [if_neg hkey, mapAllQuestions_error oracle questions q hq hfail]
  refine ⟨hrun, ?_⟩
  intro r hcon
  rw [hrun] at hcon
  exact Except.noConfusion hcon

/-- Witness for C1: a two-question batch whose second question's external
    call fails produces the error and no mappings. -/
theorem c1_mapping_fail_fast_witness :
    mappingAgentExecute (litStr ("key"))
        (fun n : Nat => if n = 2 then none else some
          { question_id := none, assessment_type := none, bloom_primary_level := none
            mapping_analysis := none, mapping_source := none })
        [1, 2] { uoc_code := none, title := none, elements := []
                 performance_criteria := [], performance_evidence := []
                 knowledge_evidence := [] } (litStr ("Mixed"))
      = Except.error mapFailMsg ∧
    ∀ r : MappingExecResult,
      mappingAgentExecute (litStr ("key"))
        (fun n : Nat => if n = 2 then none else some
          { question_id := none, assessment_type := none, bloom_primary_level := none
            mapping_analysis := none, mapping_source := none })
        [1, 2] { uoc_code := none, title := none, elements := []
                 performance_criteria := [], performance_evidence := []
                 knowledge_evidence := [] } (litStr ("Mixed")) ≠ Except.ok r :=
  c1_mapping_fail_fast (litStr ("key")) _ [1, 2] _ _ (by decide) 2 (by decide) (by decide)

/- C9 helper lemmas: half-even rounding on quotient/remainder form. -/

/-- `roundHalfEvenDiv` on an explicit quotient/remainder pair. -/
def rheQR (q r n : Nat) : Nat :=
  if 2 * r < n then q
  else if n < 2 * r then q + 1
  else if q % 2 = 0 then q else q + 1

theorem roundHalfEvenDiv_eq_rheQR (num den : Nat) :
    roundHalfEvenDiv num den = rheQR (num / den) (num % den) den := rfl

theorem rheQR_bounds (q r n : Nat) : q ≤ rheQR q r n ∧ rheQR q r n ≤ q + 1 := by
  unfold rheQR
  split_ifs <;> omega

theorem rheQR_strict (q r q' r' n : Nat) (hr : r < n) (hr' : r' < n)
    (h2 : n ≤ 1000) (hrel : n * q + r + 1000 = n * q' + r')
    (hdvd : n = 1000 → r = 0) :
    rheQR q r n < rheQR q' r' n := by
  have hstep : q + 1 ≤ q' := by
    rcases le_or_lt (q + 1) q' with hge | hlt
    · exact hge
    · exfalso
      have hle : q' ≤ q := by omega
      have hm : n * q' ≤ n * q := Nat.mul_le_mul_left n hle
      omega
  rcases Nat.eq_or_lt_of_le hstep with heq | hlt2
  · subst heq
    have hlin : r + 1000 = n + r' := by
      rw [Nat.mul_succ] at hrel
      omega
    rcases eq_or_ne n 1000 with hn | hn
    · have hr0 : r = 0 := hdvd hn
      subst hn
      unfold rheQR
      split_ifs <;> omega
    · unfold rheQR
      split_ifs <;> omega
  · have hb1 := rheQR_bounds q r n
    have hb2 := rheQR_bounds q' r' n
    omega

theorem pctTenths_strict (L n : Nat) (h1 : 1 ≤ n) (h2 : n ≤ 1000) :
    coveragePctTenths L n < coveragePctTenths (L + 1) n := by
  unfold coveragePctTenths
  have h0 : 0 < n := h1
  rw [if_pos h0, if_pos h0]
  rw [roundHalfEvenDiv_eq_rheQR, roundHalfEvenDiv_eq_rheQR]
  have ha := Nat.div_add_mod (1000 * L) n
  have ha' := Nat.div_add_mod (1000 * (L + 1)) n
  have hr : (1000 * L) % n < n := Nat.mod_lt _ h1
  have hr' : (1000 * (L + 1)) % n < n := Nat.mod_lt _ h1
  refine rheQR_strict _ _ _ _ n hr hr' h2 ?_ ?_
  · have hx : 1000 * (L + 1) = 1000 * L + 1000 := by ring
    omega
  · intro hn
    subst hn
    omega

theorem pySetAdd_length_of_not_mem (l : List Str) (x : Str) (hx : x ∉ l) :
    (pySetAdd l x).length = l.length + 1 := by
  unfold pySetAdd
  rw [if_neg hx]
  simp

/-- The four StandardComponent kinds of a coverage analysis. -/
inductive CompKind where
  | elems
  | crits
  | perfEv
  | knowEv
deriving DecidableEq

def kindTotal (uoc : UocDataT) : CompKind → Nat
  | .elems => uoc.elements.length
  | .crits => uoc.performance_criteria.length
  | .perfEv => uoc.performance_evidence.length
  | .knowEv => uoc.knowledge_evidence.length

def kindCollected (mappings : List MappingT) : CompKind → List Str
  | .elems => collectMappedElements mappings
  | .crits => collectMappedCriteria mappings
  | .perfEv => collectMappedPerfEvidence mappings
  | .knowEv => collectMappedKnowEvidence mappings

def kindPctTenths (ca : CoverageAnalysisT) : CompKind → Nat
  | .elems => ca.elements_coverage.percentage_tenths
  | .crits => ca.performance_criteria_coverage.percentage_tenths
  | .perfEv => ca.performance_evidence_coverage.percentage_tenths
  | .knowEv => ca.knowledge_evidence_coverage.percentage_tenths

/-- A mapping that targets exactly one component `code` of the given kind
    (the "one valid Mapping" of the claim). -/
def singleTargetMapping : CompKind → Str → MappingT
  | .elems, code =>
    { question_id := none, assessment_type := none, bloom_primary_level := none
      mapping_source := none
      mapping_analysis := some
        { mapped_elements := [{ element_id := some code, element_code := some code
                                element_description := some code
                                confidence_score := some (9/10) }]
          mapped_performance_criteria := [], mapped_performance_evidence := []
          mapped_knowledge_evidence := [] } }
  | .crits, code =>
    { question_id := none, assessment_type := none, bloom_primary_level := none
      mapping_source := none
      mapping_analysis := some
        { mapped_elements := []
          mapped_performance_criteria := [{ criterion_id := some code
                                            criterion_code := some code
                                            criterion_description := some code
                                            confidence_score := some (9/10) }]
          mapped_performance_evidence := [], mapped_knowledge_evidence := [] } }
  | .perfEv, code =>
    { question_id := none, assessment_type := none, bloom_primary_level := none
      mapping_source := none
      mapping_analysis := some
        { mapped_elements := [], mapped_performance_criteria := []
          mapped_performance_evidence := [{ evidence_id := some code
                                            evidence_code := some code
                                            evidence_description := some code
                                            confidence_score := some (9/10) }]
          mapped_knowledge_evidence := [] } }
  | .knowEv, code =>
    { question_id := none, assessment_type := none, bloom_primary_level := none
      mapping_source := none
      mapping_analysis := some
        { mapped_elements := [], mapped_performance_criteria := []
          mapped_performance_evidence := []
          mapped_knowledge_evidence := [{ evidence_id := some code
                                          evidence_code := some code
                                          knowledge_id := none, knowledge_code := none
                                          evidence_description := some code
                                          confidence_score := some (9/10) }] } }

/-- C9 (amended): adding one valid Mapping that targets a previously
    unmapped component of some kind strictly increases that kind's reported
    coverage percentage provided the kind has between 1 and 1000 components;
    with more than 1000 components the one-decimal rounding of the
    percentage can swallow the increase (see the counterexample). -/
theorem c9_coverage_monotonic_amended (k : CompKind) (uoc : UocDataT)
    (mappings : List MappingT) (code : Str)
    (hnew : code ∉ kindCollected mappings k)
    (h1 : 1 ≤ kindTotal uoc k) (h2 : kindTotal uoc k ≤ 1000) :
    kindPctTenths (analyzeMappingCoverage mappings uoc) k
      < kindPctTenths
          (analyzeMappingCoverage (mappings ++ [singleTargetMapping k code]) uoc) k := by
  cases k with
  | elems =>
    have hc : collectMappedElements (mappings ++ [singleTargetMapping CompKind.elems code])
        = pySetAdd (collectMappedElements mappings) code := by
      unfold collectMappedElements
      rw [List.foldl_append]
      rfl
    show coveragePctTenths (collectMappedElements mappings).length uoc.elements.length
      < coveragePctTenths
          (collectMappedElements (mappings ++ [singleTargetMapping CompKind.elems code])).length
          uoc.elements.length
    rw [hc, pySetAdd_length_of_not_mem _ _ (by exact hnew)]
    exact pctTenths_strict _ _ h1 h2
  | crits =>
    have hc : collectMappedCriteria (mappings ++ [singleTargetMapping CompKind.crits code])
        = pySetAdd (collectMappedCriteria mappings) code := by
      unfold collectMappedCriteria
      rw [List.foldl_append]
      rfl
    show coveragePctTenths (collectMappedCriteria mappings).length
        uoc.performance_criteria.length
      < coveragePctTenths
          (collectMappedCriteria (mappings ++ [singleTargetMapping CompKind.crits code])).length
          uoc.performance_criteria.length
    rw [hc, pySetAdd_length_of_not_mem _ _ (by exact hnew)]
    exact pctTenths_strict _ _ h1 h2
  | perfEv =>
    have hc : collectMappedPerfEvidence (mappings ++ [singleTargetMapping CompKind.perfEv code])
        = pySetAdd (collectMappedPerfEvidence mappings) code := by
      unfold collectMappedPerfEvidence
      rw [List.foldl_append]
      rfl
    show coveragePctTenths (collectMappedPerfEvidence mappings).length
        uoc.performance_evidence.length
      < coveragePctTenths
          (collectMappedPerfEvidence
            (mappings ++ [singleTargetMapping CompKind.perfEv code])).length
          uoc.performance_evidence.length
    rw [hc, pySetAdd_length_of_not_mem _ _ (by exact hnew)]
    exact pctTenths_strict _ _ h1 h2
  | knowEv =>
    have hc : collectMappedKnowEvidence (mappings ++ [singleTargetMapping CompKind.knowEv code])
        = pySetAdd (collectMappedKnowEvidence mappings) code := by
      unfold collectMappedKnowEvidence
      rw [List.foldl_append]
      rfl
    show coveragePctTenths (collectMappedKnowEvidence mappings).length
        uoc.knowledge_evidence.length
      < coveragePctTenths
          (collectMappedKnowEvidence
            (mappings ++ [singleTargetMapping CompKind.knowEv code])).length
          uoc.knowledge_evidence.length
    rw [hc, pySetAdd_length_of_not_mem _ _ (by exact hnew)]
    exact pctTenths_strict _ _ h1 h2

/-- Unfolding equation: the elements percentage field of the coverage
    analysis. -/
theorem analyze_elems_pct (mappings : List MappingT) (uoc : UocDataT) :
    kindPctTenths (analyzeMappingCoverage mappings uoc) CompKind.elems
      = coveragePctTenths (collectMappedElements mappings).length
          uoc.elements.length := rfl

/-- A featureless component fixture. -/
def blankComponent : ComponentT :=
  { id := none, element_id := some (litStr ("E1")), code := none, description := none }

/-- A UoC fixture whose element kind has 10000 components. -/
def uocTenThousand : UocDataT :=
  { uoc_code := none, title := none, elements := List.replicate 10000 blankComponent
    performance_criteria := [], performance_evidence := [], knowledge_evidence := [] }

/-- Counterexample to C9 as stated: with 10000 elements and no prior
    mappings, adding one valid Mapping for the previously-unmapped element
    "E1" leaves the reported percentage (one-decimal rounding of
    1/10000 = 0.01%) unchanged at 0, so the increase is not strict. -/
theorem c9_coverage_monotonic_counterexample :
    (litStr ("E1")) ∉ kindCollected [] CompKind.elems ∧
    1 ≤ kindTotal uocTenThousand CompKind.elems ∧
    kindPctTenths
        (analyzeMappingCoverage ([singleTargetMapping CompKind.elems (litStr ("E1"))])
          uocTenThousand) CompKind.elems
      = kindPctTenths (analyzeMappingCoverage [] uocTenThousand) CompKind.elems := by
  have hlen : uocTenThousand.elements.length = 10000 := by
    show (List.replicate 10000 blankComponent).length = 10000
    rw [List.length_replicate]
  refine ⟨by decide, ?_, ?_⟩
  · show 1 ≤ uocTenThousand.elements.length
    rw [hlen]
    omega
  · have hc0 : (collectMappedElements []).length = 0 := rfl
    have hc1 : (collectMappedElements
        [singleTargetMapping CompKind.elems (litStr ("E1"))]).length = 1 := rfl
    rw [analyze_elems_pct, analyze_elems_pct, hc0, hc1, hlen]
    decide

/-- A UoC fixture with two elements. -/
def uocTwoElements : UocDataT :=
  { uoc_code := none, title := none, elements := [blankComponent, blankComponent]
    performance_criteria := [], performance_evidence := [], knowledge_evidence := [] }

/-- Witness for the amended C9: with 2 elements, mapping the first one lifts
    the percentage from 0 to 50.0. -/
theorem c9_coverage_monotonic_amended_witness :
    kindPctTenths (analyzeMappingCoverage [] uocTwoElements) CompKind.elems
      < kindPctTenths
          (analyzeMappingCoverage ([] ++ [singleTargetMapping CompKind.elems (litStr ("E1"))])
            uocTwoElements) CompKind.elems :=
  c9_coverage_monotonic_amended CompKind.elems uocTwoElements [] (litStr ("E1"))
    (by decide) (by decide) (by decide)

/- ===================================================================
   C5.  MappingAgent._clean_json_response / _fix_common_json_issues
   (mapping_agent.py 272-349), with a model of Python json.loads.
   =================================================================== -/

/-- JSON values as produced by Python `json.loads`.  Number values keep
    their source lexeme (no float semantics are needed by any claim).
    The `NaN`/`Infinity` extensions of the Python parser are not modelled;
    no input considered here contains them. -/
inductive Json where
  | null
  | bool (b : Bool)
  | num (lexeme : Str)
  | str (s : Str)
  | arr (items : List Json)
  | obj (fields : List (Str × Json))

/-- JSON whitespace (what Python's json scanner skips between tokens). -/
def isJsonWs (c : Char) : Bool :=
  c = ' ' || c = '\t' || c = '\n' || c = '\r'

def skipWs (s : Str) : Str := s.dropWhile isJsonWs

def isHexDigitCh (c : Char) : Bool :=
  c.isDigit || ('a' ≤ c && c ≤ 'f') || ('A' ≤ c && c ≤ 'F')

/-- Numeric value of one hexadecimal digit. -/
def hexVal (c : Char) : Nat :=
  if c.isDigit then c.toNat - 48
  else if 'a' ≤ c ∧ c ≤ 'f' then c.toNat - 87
  else if 'A' ≤ c ∧ c ≤ 'F' then c.toNat - 55
  else 0

/-- JSON string body after the opening quote, per Python's strict scanner:
    control characters are rejected, escapes are the JSON ones
    (`\uXXXX` decodes one code unit; surrogate pairing is not modelled —
    no input here uses `\u`). -/
def parseJStringBody : Str → Option (Str × Str)
  | [] => none
  | c :: rest =>
    if c = '"' then some ([], rest)
    else if c = '\\' then
      match rest with
      | [] => none
      | e :: rest2 =>
        let simpleEsc : Option Char :=
          if e = '"' then some '"'
          else if e = '\\' then some '\\'
          else if e = '/' then some '/'
          else if e = 'b' then some (Char.ofNat 8)
          else if e = 'f' then some (Char.ofNat 12)
          else if e = 'n' then some '\n'
          else if e = 'r' then some '\r'
          else if e = 't' then some '\t'
          else none
        match simpleEsc with
        | some ch =>
          match parseJStringBody rest2 with
          | some (body, tail) => some (ch :: body, tail)
          | none => none
        | none =>
          if e = 'u' then
            match rest2 with
            | h1 :: h2 :: h3 :: h4 :: rest3 =>
              if isHexDigitCh h1 && isHexDigitCh h2 && isHexDigitCh h3 && isHexDigitCh h4 then
                let v := 4096 * hexVal h1 + 256 * hexVal h2 + 16 * hexVal h3 + hexVal h4
                match parseJStringBody rest3 with
                | some (body, tail) => some (Char.ofNat v :: body, tail)
                | none => none
              else none
            | _ => none
          else none
    else if c.toNat < 32 then none
    else
      match parseJStringBody rest with
      | some (body, tail) => some (c :: body, tail)
      | none => none

/-- JSON number lexeme per the json scanner's NUMBER_RE
    `(-?(?:0|[1-9]\d*))(\.\d+)?([eE][-+]?\d+)?` (longest match from the
    current position; what follows is left in the remainder). -/
def parseJNumber (s : Str) : Option (Str × Str) :=
  let negPair : Str × Str := match s with
    | '-' :: r => (['-'], r)
    | _ => ([], s)
  let neg := negPair.1
  let s1 := negPair.2
  match s1 with
  | [] => none
  | d :: _ =>
    if d.isDigit then
      let intPart := if d = '0' then ['0'] else s1.takeWhile Char.isDigit
      let s2 := s1.drop intPart.length
      let fracPair : Str × Str := match s2 with
        | '.' :: r =>
          let ds := r.takeWhile Char.isDigit
          if ds = [] then ([], s2) else ('.' :: ds, r.drop ds.length)
        | _ => ([], s2)
      let s3 := fracPair.2
      let expPair : Str × Str := match s3 with
        | e :: r =>
          if e = 'e' ∨ e = 'E' then
            let sgnPair : Str × Str := match r with
              | c2 :: r2 => if c2 = '+' ∨ c2 = '-' then ([c2], r2) else ([], r)
              | [] => ([], r)
            let ds := sgnPair.2.takeWhile Char.isDigit
            if ds = [] then ([], s3) else (e :: (sgnPair.1 ++ ds), sgnPair.2.drop ds.length)
          else ([], s3)
        | [] => ([], s3)
      some (neg ++ intPart ++ fracPair.1 ++ expPair.1, expPair.2)
    else none

/-- Parser mode: a plain value, the members of an object after `{`, or the
    items of an array after `[` (with the accumulated prefix). -/
inductive PMode where
  | value
  | members (acc : List (Str × Json))
  | items (acc : List Json)

/-- Recursive-descent model of Python `json.loads`'s scanner, fuelled (the
    fuel only bounds nesting/iteration and is always supplied ≥ length+1). -/
def parseJ : Nat → PMode → Str → Option (Json × Str)
  | 0, _, _ => none
  | Nat.succ fuel, PMode.value, s =>
    match skipWs s with
    | [] => none
    | c :: rest =>
      if c = '{' then
        match skipWs rest with
        | '}' :: rest2 => some (Json.obj [], rest2)
        | _ => parseJ fuel (PMode.members []) rest
      else if c = '[' then
        match skipWs rest with
        | ']' :: rest2 => some (Json.arr [], rest2)
        | _ => parseJ fuel (PMode.items []) rest
      else if c = '"' then
        match parseJStringBody rest with
        | some (body, rest2) => some (Json.str body, rest2)
        | none => none
      else if (litStr ("true")).isPrefixOf (c :: rest) then
        some (Json.bool true, (c :: rest).drop 4)
      else if (litStr ("false")).isPrefixOf (c :: rest) then
        some (Json.bool false, (c :: rest).drop 5)
      else if (litStr ("null")).isPrefixOf (c :: rest) then
        some (Json.null, (c :: rest).drop 4)
      else
        match parseJNumber (c :: rest) with
        | some (lex, rest2) => some (Json.num lex, rest2)
        | none => none
  | Nat.succ fuel, PMode.members acc, s =>
    match skipWs s with
    | '"' :: rest =>
      match parseJStringBody rest with
      | some (key, rest2) =>
        match skipWs rest2 with
        | ':' :: rest3 =>
          match parseJ fuel PMode.value rest3 with
          | some (v, rest4) =>
            match skipWs rest4 with
            | ',' :: rest5 => parseJ fuel (PMode.members (acc ++ [(key, v)])) rest5
            | '}' :: rest5 => some (Json.obj (acc ++ [(key, v)]), rest5)
            | _ => none
          | none => none
        | _ => none
      | none => none
    | _ => none
  | Nat.succ fuel, PMode.items acc, s =>
    match parseJ fuel PMode.value s with
    | some (v, rest) =>
      match skipWs rest with
      | ',' :: rest2 => parseJ fuel (PMode.items (acc ++ [v])) rest2
      | ']' :: rest2 => some (Json.arr (acc ++ [v]), rest2)
      | _ => none
    | none => none

/-- Model of Python `json.loads`: parse one value and require only
    whitespace to follow (`Extra data` otherwise). -/
def jsonLoads (s : Str) : Option Json :=
  match parseJ (s.length + 1) PMode.value s with
  | some (v, rest) => if skipWs rest = [] then some v else none
  | none => none

/-- Python `str.find(c)`. -/
def findIdxChar (s : Str) (c : Char) : Option Nat :=
  s.findIdx? (fun x => x = c)

/-- Python `str.rfind(c)` (index of the last occurrence). -/
def rfindChar (s : Str) (c : Char) : Option Nat :=
  match (s.reverse).findIdx? (fun x => x = c) with
  | some i => some (s.length - 1 - i)
  | none => none

/-- `re.sub(r'```json\s*', '', response)`: delete every occurrence of the
    fence marker together with the following whitespace run. -/
def removeFenceJson : Nat → Str → Str
  | 0, s => s
  | _ + 1, [] => []
  | fuel + 1, c :: rest =>
    if (litStr ("```json")).isPrefixOf (c :: rest) then
      removeFenceJson fuel (((c :: rest).drop 7).dropWhile Char.isWhitespace)
    else c :: removeFenceJson fuel rest

/-- `re.sub(r'```\s*', '', ...)`. -/
def removeFence : Nat → Str → Str
  | 0, s => s
  | _ + 1, [] => []
  | fuel + 1, c :: rest =>
    if (litStr ("```")).isPrefixOf (c :: rest) then
      removeFence fuel (((c :: rest).drop 3).dropWhile Char.isWhitespace)
    else c :: removeFence fuel rest

/-- `re.sub(r',(\s*[}\]])', r'\1', ...)`: drop a comma standing before a
    closing brace/bracket (scanning resumes after the closer). -/
def fixTrailingCommas : Nat → Str → Str
  | 0, s => s
  | _ + 1, [] => []
  | fuel + 1, c :: rest =>
    if c = ',' then
      let ws := rest.takeWhile Char.isWhitespace
      match rest.drop ws.length with
      | b :: rest2 =>
        if b = '}' ∨ b = ']' then ws ++ b :: fixTrailingCommas fuel rest2
        else ',' :: fixTrailingCommas fuel rest
      | [] => ',' :: fixTrailingCommas fuel rest
    else c :: fixTrailingCommas fuel rest

/-- The lookahead `(?=.*".*:)` of the quote-escaping substitution: the rest
    of the current line contains a quote with a colon somewhere after it. -/
def lineHasQuoteColon (rest : Str) : Bool :=
  let line := rest.takeWhile (fun c => ¬ c = '\n')
  match line.dropWhile (fun c => ¬ c = '"') with
  | _ :: t => t.any (fun c => c = ':')
  | [] => false

/-- `re.sub(r'(?<!\\)"(?=.*".*:)', r'\\"', ...)`: escape a quote not already
    preceded by a backslash when the rest of its line still holds a quote
    followed by a colon (matches are found against the original text). -/
def fixUnescapedQuotes (prev : Option Char) : Str → Str
  | [] => []
  | c :: rest =>
    if c = '"' ∧ ¬ prev = some '\\' ∧ lineHasQuoteColon rest = true then
      '\\' :: '"' :: fixUnescapedQuotes (some c) rest
    else c :: fixUnescapedQuotes (some c) rest

/-- `re.sub(r'}\s*{', '},{', ...)`. -/
def fixMissingCommasObj : Nat → Str → Str
  | 0, s => s
  | _ + 1, [] => []
  | fuel + 1, c :: rest =>
    if c = '}' then
      let ws := rest.takeWhile Char.isWhitespace
      match rest.drop ws.length with
      | '{' :: rest2 => '}' :: ',' :: '{' :: fixMissingCommasObj fuel rest2
      | _ => '}' :: fixMissingCommasObj fuel rest
    else c :: fixMissingCommasObj fuel rest

/-- `re.sub(r']\s*\[', '],[', ...)`. -/
def fixMissingCommasArr : Nat → Str → Str
  | 0, s => s
  | _ + 1, [] => []
  | fuel + 1, c :: rest =>
    if c = ']' then
      let ws := rest.takeWhile Char.isWhitespace
      match rest.drop ws.length with
      | '[' :: rest2 => ']' :: ',' :: '[' :: fixMissingCommasArr fuel rest2
      | _ => ']' :: fixMissingCommasArr fuel rest
    else c :: fixMissingCommasArr fuel rest

/-- `MappingAgent._fix_common_json_issues`: the four textual repairs in
    source order, then removal of control characters
    (`[\x00-\x1f\x7f-\x9f]`). -/
def fixCommonJsonIssues (s : Str) : Str :=
  let s1 := fixTrailingCommas (s.length + 1) s
  let s2 := fixUnescapedQuotes none s1
  let s3 := fixMissingCommasObj (s2.length + 1) s2
  let s4 := fixMissingCommasArr (s3.length + 1) s3
  s4.filter (fun c => ¬ (c.toNat ≤ 31 ∨ (127 ≤ c.toNat ∧ c.toNat ≤ 159)))

def nonBrace (c : Char) : Bool := ¬ (c = '{' ∨ c = '}')

/-- The iterated group `(?:\{[^{}]*\}[^{}]*)*\}` tail of the balanced-brace
    pattern: consume depth-one groups until the closing brace (this pattern
    is deterministic — every quantifier's continuation starts with a brace,
    which `[^{}]*` cannot consume). -/
def braceLoop : Nat → Str → Str → Option (Str × Str)
  | 0, _, _ => none
  | fuel + 1, acc, s =>
    match s with
    | '}' :: rest => some (acc ++ ['}'], rest)
    | '{' :: rest =>
      let b := rest.takeWhile nonBrace
      match rest.drop b.length with
      | '}' :: rest2 =>
        let c2 := rest2.takeWhile nonBrace
        braceLoop fuel (acc ++ '{' :: (b ++ '}' :: c2)) (rest2.drop c2.length)
      | _ => none
    | _ => none

/-- One attempt of `\{[^{}]*(?:\{[^{}]*\}[^{}]*)*\}` anchored at `s`. -/
def braceAttempt (s : Str) : Option (Str × Str) :=
  match s with
  | '{' :: rest =>
    let a := rest.takeWhile nonBrace
    braceLoop (s.length + 1) ('{' :: a) (rest.drop a.length)
  | _ => none

/-- `re.findall` of the balanced-brace pattern: leftmost, non-overlapping
    matches; a failed attempt advances the scan by one character. -/
def findBraceMatches : Nat → Str → List Str
  | 0, _ => []
  | _ + 1, [] => []
  | fuel + 1, c :: rest =>
    if c = '{' then
      match braceAttempt (c :: rest) with
      | some (m, rest2) => m :: findBraceMatches fuel rest2
      | none => findBraceMatches fuel rest
    else findBraceMatches fuel rest

/-- `MappingAgent._clean_json_response`: the four repair methods in source
    order.  NOTE (kept faithfully): method 3 slices the ORIGINAL `response`
    with the `find`/`rfind` indices computed from the fence-stripped
    `cleaned` text of method 2. -/
def cleanJsonResponse (response : Str) : Option Str :=
  let js1 := findIdxChar response '{'
  let je1 := rfindChar response '}'
  let m1 : Option Str :=
    match js1, je1 with
    | some i, some j =>
      if i < j + 1 then
        let cand := (response.drop i).take (j + 1 - i)
        match jsonLoads cand with
        | some _ => some cand
        | none => none
      else none
    | _, _ => none
  match m1 with
  | some c => some c
  | none =>
    let cleaned := removeFence ((removeFenceJson (response.length + 1) response).length + 1)
      (removeFenceJson (response.length + 1) response)
    let js2 := findIdxChar cleaned '{'
    let je2 := rfindChar cleaned '}'
    let m2 : Option Str :=
      match js2, je2 with
      | some i, some j =>
        if i < j + 1 then
          let cand := (cleaned.drop i).take (j + 1 - i)
          match jsonLoads cand with
          | some _ => some cand
          | none => none
        else none
      | _, _ => none
    match m2 with
    | some c => some c
    | none =>
      let m3 : Option Str :=
        match js2, je2 with
        | some i, some j =>
          if i < j + 1 then
            let cand := fixCommonJsonIssues ((response.drop i).take (j + 1 - i))
            match jsonLoads cand with
            | some _ => some cand
            | none => none
          else none
        | _, _ => none
      match m3 with
      | some c => some c
      | none =>
        (findBraceMatches (response.length + 1) response).findSome?
          (fun m => match jsonLoads m with
                    | some _ => some m
                    | none => none)

/-- C5: on the reply text `Here you go: ```json {"a":1,}``` ` the repair
    pipeline of `_clean_json_response` yields NO structured result (`None`),
    while the claim (and spec scenario) expect it to yield a JSON string
    parsing to the value with "a" bound to 1 (second conjunct: that intended
    value is indeed what `{"a":1}` parses to).  The divergence comes from
    method 3 slicing the original reply with indices computed on the
    fence-stripped text (it repairs the substring "```json " instead of the
    candidate object), after which no later method removes the trailing
    comma. -/
theorem c5_clean_json_response_scenario :
    cleanJsonResponse (litStr ("Here you go: ```json \x7b\"a\":1,\x7d```")) = none ∧
    jsonLoads (litStr ("\x7b\"a\":1\x7d"))
      = some (Json.obj [(litStr ("a"), Json.num (litStr ("1")))]) :=
  ⟨rfl, rfl⟩

/- ===================================================================
   C7.  MappingAgent._validate_basic_mapping_structure (351-372) and the
   mapped-list backfill of _ensure_complete_mapping_structure (397-402)
   =================================================================== -/

/-- Python dict lookup on a parsed JSON object (duplicate keys collapse
    last-wins, as in `json.loads`). -/
def jGet (fields : List (Str × Json)) (key : Str) : Option Json :=
  match fields.reverse.find? (fun kv => kv.1 = key) with
  | some kv => some kv.2
  | none => none

def isJArr : Json → Bool
  | Json.arr _ => true
  | _ => false

/-- One required-analysis-field check of `_validate_basic_mapping_structure`:
    `field in mapping_analysis` followed by `isinstance(..., list)`.
    `none` models a `TypeError` escaping (the `in` succeeded on a list or
    string value, whose subscripting by a string then raises; or the value
    supports neither `in` nor subscripting). -/
def checkAnalysisField (ma : Json) (field : Str) : Option Bool :=
  match ma with
  | Json.obj fs =>
    match jGet fs field with
    | none => some false
    | some v => some (isJArr v)
  | Json.arr xs =>
    if xs.any (fun v => match v with | Json.str s => s = field | _ => false) then none
    else some false
  | Json.str s => if containsSub field s then none else some false
  | _ => none

/-- `_validate_basic_mapping_structure` for dict-shaped parsed replies
    (`fields` are the reply dict's entries): requires `question_id` and
    `mapping_analysis` keys, then — of the four mapped-item lists — ONLY
    `mapped_elements` and `mapped_performance_criteria`, each a list. -/
def validateBasicMappingStructure (fields : List (Str × Json)) : Option Bool :=
  if (jGet fields (litStr ("question_id"))).isNone then some false
  else if (jGet fields (litStr ("mapping_analysis"))).isNone then some false
  else
    let ma := (jGet fields (litStr ("mapping_analysis"))).getD (Json.obj [])
    match checkAnalysisField ma (litStr ("mapped_elements")) with
    | none => none
    | some false => some false
    | some true =>
      match checkAnalysisField ma (litStr ("mapped_performance_criteria")) with
      | none => none
      | some b => some b

/-- Python `dict.setdefault(key, v)` (insertion order preserved). -/
def jSetdefault (fs : List (Str × Json)) (key : Str) (v : Json) :
    List (Str × Json) :=
  if (jGet fs key).isSome then fs else fs ++ [(key, v)]

/-- The four `mapping_analysis.setdefault(...)` lines of
    `_ensure_complete_mapping_structure`: absent mapped-item lists are
    backfilled with empty lists. -/
def ensureAnalysisLists (fs : List (Str × Json)) : List (Str × Json) :=
  jSetdefault (jSetdefault (jSetdefault (jSetdefault fs
    (litStr ("mapped_elements")) (Json.arr []))
    (litStr ("mapped_performance_criteria")) (Json.arr []))
    (litStr ("mapped_performance_evidence")) (Json.arr []))
    (litStr ("mapped_knowledge_evidence")) (Json.arr [])

theorem jGet_append_last (fs : List (Str × Json)) (k : Str) (v : Json) :
    jGet (fs ++ [(k, v)]) k = some v := by
  unfold jGet
  rw [List.reverse_append]
  simp [List.find?]

theorem jGet_append_other (fs : List (Str × Json)) (k k2 : Str) (v : Json)
    (hk : ¬ k = k2) : jGet (fs ++ [(k2, v)]) k = jGet fs k := by
  unfold jGet
  rw [List.reverse_append]
  have hne : ¬ (k2 = k) := fun h => hk h.symm
  simp [List.find?, hne]

theorem jGet_setdefault_isSome_self (fs : List (Str × Json)) (k : Str) (v : Json) :
    (jGet (jSetdefault fs k v) k).isSome = true := by
  unfold jSetdefault
  by_cases h : (jGet fs k).isSome = true
  · rw [if_pos h]
    exact h
  · rw [if_neg h, jGet_append_last]
    rfl

theorem jGet_setdefault_preserve (fs : List (Str × Json)) (k k2 : Str) (v : Json)
    (h : (jGet fs k).isSome = true) :
    (jGet (jSetdefault fs k2 v) k).isSome = true := by
  unfold jSetdefault
  by_cases h2 : (jGet fs k2).isSome = true
  · rw [if_pos h2]
    exact h
  · rw [if_neg h2]
    by_cases hk : k = k2
    · subst hk
      rw [jGet_append_last]
      rfl
    · rw [jGet_append_other fs k k2 v hk]
      exact h

theorem checkAnalysisField_obj_eq (fs : List (Str × Json)) (field : Str) :
    checkAnalysisField (Json.obj fs) field =
      (match jGet fs field with
       | none => some false
       | some v => some (isJArr v)) := rfl

theorem checkAnalysisField_obj_iff (fs : List (Str × Json)) (field : Str) :
    checkAnalysisField (Json.obj fs) field = some true ↔
      ∃ v, jGet fs field = some v ∧ isJArr v = true := by
  cases hv : jGet fs field with
  | none =>
    rw [checkAnalysisField_obj_eq, hv]
    constructor
    · intro h
      simp at h
    · rintro ⟨v, hv2, _⟩
      exact Option.noConfusion hv2
  | some v =>
    rw [checkAnalysisField_obj_eq, hv]
    constructor
    · intro h
      exact ⟨v, rfl, Option.some.inj h⟩
    · rintro ⟨v2, hv2, ha⟩
      rw [← Option.some.inj hv2] at ha
      simp [ha]

/-- C7 (amended): a parsed reply (dict-shaped, with a dict-shaped
    `mapping_analysis`) is accepted by `_validate_basic_mapping_structure`
    iff it has a `question_id` and its analysis has `mapped_elements` and
    `mapped_performance_criteria` as lists — the other two mapped-item lists
    (`mapped_performance_evidence`, `mapped_knowledge_evidence`) are NOT
    required for acceptance; when absent they are backfilled with empty
    lists by `_ensure_complete_mapping_structure` (second and third
    conjuncts). -/
theorem c7_validation_requires_two_lists (fields maFields : List (Str × Json))
    (hma : jGet fields (litStr ("mapping_analysis")) = some (Json.obj maFields)) :
    (validateBasicMappingStructure fields = some true ↔
      ((jGet fields (litStr ("question_id"))).isSome = true ∧
       (∃ v, jGet maFields (litStr ("mapped_elements")) = some v ∧ isJArr v = true) ∧
       (∃ v, jGet maFields (litStr ("mapped_performance_criteria")) = some v ∧
         isJArr v = true))) ∧
    (jGet (ensureAnalysisLists maFields)
      (litStr ("mapped_performance_evidence"))).isSome = true ∧
    (jGet (ensureAnalysisLists maFields)
      (litStr ("mapped_knowledge_evidence"))).isSome = true := by
  refine ⟨?_, ?_, ?_⟩
  · unfold validateBasicMappingStructure
    rw [hma]
    simp only [Option.isNone_some, Bool.false_eq_true, if_false, Option.getD_some]
    by_cases hq : (jGet fields (litStr ("question_id"))).isNone = true
    · rw [if_pos hq]
      constructor
      · intro h
        simp at h
      · rintro ⟨hqs, _, _⟩
        rw [Option.isNone_iff_eq_none.mp hq] at hqs
        simp at hqs
    · rw [if_neg hq]
      have hq2 : (jGet fields (litStr ("question_id"))).isSome = true := by
        cases hje : jGet fields (litStr ("question_id")) with
        | none => rw [hje] at hq; simp at hq
        | some x => rfl
      cases he : checkAnalysisField (Json.obj maFields) (litStr ("mapped_elements")) with
      | none =>
        simp only [he]
        constructor
        · intro h
          exact Option.noConfusion h
        · rintro ⟨_, hex, _⟩
          have h2 := (checkAnalysisField_obj_iff maFields (litStr ("mapped_elements"))).mpr hex
          rw [he] at h2
          exact Option.noConfusion h2
      | some b =>
        cases b with
        | false =>
          simp only [he]
          constructor
          · intro h
            simp at h
          · rintro ⟨_, hex, _⟩
            have h2 := (checkAnalysisField_obj_iff maFields (litStr ("mapped_elements"))).mpr hex
            rw [he] at h2
            exact absurd (Option.some.inj h2) Bool.false_ne_true
        | true =>
          simp only [he]
          cases hc : checkAnalysisField (Json.obj maFields)
              (litStr ("mapped_performance_criteria")) with
          | none =>
            simp only [hc]
            constructor
            · intro h
              exact Option.noConfusion h
            · rintro ⟨_, _, hex⟩
              have h2 := (checkAnalysisField_obj_iff maFields
                (litStr ("mapped_performance_criteria"))).mpr hex
              rw [hc] at h2
              exact Option.noConfusion h2
          | some b2 =>
            simp only [hc]
            constructor
            · intro h
              have hb2 : b2 = true := Option.some.inj h
              subst hb2
              exact ⟨hq2,
                (checkAnalysisField_obj_iff maFields (litStr ("mapped_elements"))).mp he,
                (checkAnalysisField_obj_iff maFields
                  (litStr ("mapped_performance_criteria"))).mp hc⟩
            · rintro ⟨_, _, hex⟩
              have h2 := (checkAnalysisField_obj_iff maFields
                (litStr ("mapped_performance_criteria"))).mpr hex
              rw [hc] at h2
              rw [Option.some.inj h2]
  · exact jGet_setdefault_preserve _ _ _ _
      (jGet_setdefault_isSome_self _ _ _)
  · exact jGet_setdefault_isSome_self _ _ _

/-- The analysis fields of the C7 counterexample reply: both required lists
    present, the performance-evidence and knowledge-evidence lists absent. -/
def c7AnalysisFields : List (Str × Json) :=
  [(litStr ("mapped_elements"), Json.arr []),
   (litStr ("mapped_performance_criteria"), Json.arr [])]

/-- The C7 counterexample reply dict. -/
def c7ReplyFields : List (Str × Json) :=
  [(litStr ("question_id"), Json.num (litStr ("1"))),
   (litStr ("mapping_analysis"), Json.obj c7AnalysisFields)]

/-- Counterexample to C7 as stated: a reply missing BOTH
    `mapped_performance_evidence` and `mapped_knowledge_evidence` is
    nevertheless accepted (validation returns True), so a reply missing one
    of the four lists is not treated as a mapping failure. -/
theorem c7_validation_counterexample :
    validateBasicMappingStructure c7ReplyFields = some true ∧
    jGet c7AnalysisFields (litStr ("mapped_performance_evidence")) = none ∧
    jGet c7AnalysisFields (litStr ("mapped_knowledge_evidence")) = none :=
  ⟨rfl, rfl, rfl⟩

/-- Witness for the amended C7, instantiated at the counterexample reply. -/
theorem c7_validation_requires_two_lists_witness :
    (validateBasicMappingStructure c7ReplyFields = some true ↔
      ((jGet c7ReplyFields (litStr ("question_id"))).isSome = true ∧
       (∃ v, jGet c7AnalysisFields (litStr ("mapped_elements")) = some v ∧
         isJArr v = true) ∧
       (∃ v, jGet c7AnalysisFields (litStr ("mapped_performance_criteria")) = some v ∧
         isJArr v = true))) ∧
    (jGet (ensureAnalysisLists c7AnalysisFields)
      (litStr ("mapped_performance_evidence"))).isSome = true ∧
    (jGet (ensureAnalysisLists c7AnalysisFields)
      (litStr ("mapped_knowledge_evidence"))).isSome = true :=
  c7_validation_requires_two_lists c7ReplyFields c7AnalysisFields rfl

/- ===================================================================
   ExtractAgent (extract_agent.py): pattern-based question extraction.
   Claims C2, C3, C6, C10.
   =================================================================== -/

def natToStr (n : Nat) : Str := (toString n).data

/-- Python `text.split('\n')` (keeps empty pieces). -/
def splitOnNl : Str → List Str
  | [] => [[]]
  | c :: rest =>
    if c = '\n' then [] :: splitOnNl rest
    else
      match splitOnNl rest with
      | h :: t => (c :: h) :: t
      | [] => [[c]]

def isWordChar (c : Char) : Bool := c.isAlphanum || c = '_'

/-- The group of a trailing `\s*(.+?)$` (equally `\s*(.+)$`) applied to `r`
    on a single line: the text after the whitespace run when non-empty;
    otherwise backtracking hands the final whitespace character to the
    group; no match when `r` is empty. -/
def groupAfterWs (r : Str) : Option Str :=
  let g := r.dropWhile Char.isWhitespace
  if g ≠ [] then some g
  else
    match r.reverse with
    | x :: _ => some [x]
    | [] => none

def lastCharGroup (s : Str) : Option Str :=
  match s.reverse with
  | x :: _ => some [x]
  | [] => none

/-- `^(\d+)\.\s*(.+?)$` on a stripped line (the heading recognizer of
    `_extract_questions_from_text`); returns (number, group2.strip()). -/
def parseMainHeading (line : Str) : Option (Str × Str) :=
  let num := line.takeWhile Char.isDigit
  if num = [] then none
  else
    match line.drop num.length with
    | '.' :: rest =>
      match groupAfterWs rest with
      | some g => some (num, pstrip g)
      | none => none
    | _ => none

/-- `^(\d+)\.\s*(\d+)\s*(.+?)$` on a stripped line (the sub-question
    recognizer); returns (main number, sub number, group3.strip()). -/
def parseSubQuestion (line : Str) : Option (Str × Str × Str) :=
  let num := line.takeWhile Char.isDigit
  if num = [] then none
  else
    match line.drop num.length with
    | '.' :: rest =>
      let r2 := rest.dropWhile Char.isWhitespace
      let sub := r2.takeWhile Char.isDigit
      if sub = [] then none
      else
        match groupAfterWs (r2.drop sub.length) with
        | some g => some (num, sub, pstrip g)
        | none => none
    | _ => none

/-- Pattern 1 of `question_patterns`: `^\d+\.\s*(.+?)(?=\n\d+\.|\n\n|$)`
    applied to a single line (no newline present, so the lookahead can only
    be satisfied by the end of the line). -/
def parseP0 (line : Str) : Option Str :=
  let num := line.takeWhile Char.isDigit
  if num = [] then none
  else
    match line.drop num.length with
    | '.' :: rest => groupAfterWs rest
    | _ => none

/-- Pattern 2: `^\d+\.\s+\d+\s*(.+?)(?=\n\d+\.|\n\n|$)` on a single line;
    when nothing follows the second number, backtracking inside `\d+` can
    still yield a one-character group (its final digit). -/
def parseP1 (line : Str) : Option Str :=
  let num := line.takeWhile Char.isDigit
  if num = [] then none
  else
    match line.drop num.length with
    | '.' :: rest =>
      match rest with
      | w :: _ =>
        if w.isWhitespace then
          let r2 := rest.dropWhile Char.isWhitespace
          let d := r2.takeWhile Char.isDigit
          if d = [] then none
          else
            match groupAfterWs (r2.drop d.length) with
            | some g => some g
            | none => if 2 ≤ d.length then lastCharGroup d else none
        else none
      | [] => none
    | _ => none

/-- Pattern 3: `^[A-Z]\.\s*(.+?)(?=\n[A-Z]\.|\n\n|$)` with `re.IGNORECASE`
    (so any ASCII letter). -/
def parseP2 (line : Str) : Option Str :=
  match line with
  | c :: '.' :: rest => if c.isAlpha then groupAfterWs rest else none
  | _ => none

/-- Pattern 4: `^Question\s+\d+:\s*(.+?)(?=\nQuestion|\n\n|$)` with
    `re.IGNORECASE`. -/
def parseP3 (line : Str) : Option Str :=
  if plower (line.take 8) = litStr ("question") then
    let r := line.drop 8
    match r with
    | w :: _ =>
      if w.isWhitespace then
        let r2 := r.dropWhile Char.isWhitespace
        let d := r2.takeWhile Char.isDigit
        if d = [] then none
        else
          match r2.drop d.length with
          | ':' :: rest => groupAfterWs rest
          | _ => none
      else none
    | [] => none
  else none

/-- Pattern 5: `^Q\d+\.\s*(.+?)(?=\nQ\d+|\n\n|$)` with `re.IGNORECASE`. -/
def parseP4 (line : Str) : Option Str :=
  match line with
  | q :: r =>
    if q = 'Q' ∨ q = 'q' then
      let d := r.takeWhile Char.isDigit
      if d = [] then none
      else
        match r.drop d.length with
        | '.' :: rest => groupAfterWs rest
        | _ => none
    else none
  | [] => none

def isLetterAD (c : Char) : Bool :=
  ('A' ≤ c && c ≤ 'D') || ('a' ≤ c && c ≤ 'd')

def isDigit14 (c : Char) : Bool := '1' ≤ c && c ≤ '4'

/-- `\s*\w` continuation (deterministic: whitespace and word characters are
    disjoint). -/
def wordAfterWs (r : Str) : Bool :=
  match r.dropWhile Char.isWhitespace with
  | c :: _ => isWordChar c
  | [] => false

/-- One position of the `re.search` for the inline choice patterns of
    `_classify_question_type` (`[A-D]\.\s*\w+`, `[1-4]\.\s*\w+`,
    `[a-d]\)\s*\w+`, `[1-4]\)\s*\w+`, `[A-D]\)\s*\w+`, `\([A-D]\)\s*\w+`,
    `\([1-4]\)\s*\w+`, all with `re.IGNORECASE`). -/
def matchChoiceAt : Str → Bool
  | c :: '.' :: rest => (isLetterAD c || isDigit14 c) && wordAfterWs rest
  | c :: ')' :: rest => (isLetterAD c || isDigit14 c) && wordAfterWs rest
  | '(' :: c :: ')' :: rest => (isLetterAD c || isDigit14 c) && wordAfterWs rest
  | _ => false

def searchChoice : Str → Bool
  | [] => false
  | c :: r => matchChoiceAt (c :: r) || searchChoice r

/-- `ExtractAgent._classify_question_type` (first match wins, in source
    order). -/
def classifyQuestionType (question_text : Str) : Str :=
  let lower := plower question_text
  if searchChoice question_text then litStr ("mcq")
  else if anyKeywordIn [litStr ("multiple choice"), litStr ("select"), litStr ("choose"),
      litStr ("mcq"), litStr ("select the best"), litStr ("choose the correct")] lower then
    litStr ("mcq")
  else if anyKeywordIn [litStr ("true"), litStr ("false"), litStr ("t/f")] lower then
    litStr ("true_false")
  else if anyKeywordIn [litStr ("describe"), litStr ("explain"), litStr ("discuss"),
      litStr ("analyze"), litStr ("elaborate")] lower then
    litStr ("essay")
  else if anyKeywordIn [litStr ("list"), litStr ("name"), litStr ("identify"),
      litStr ("state")] lower then
    litStr ("short_answer")
  else if anyKeywordIn [litStr ("how"), litStr ("what"), litStr ("why"), litStr ("when"),
      litStr ("where"), litStr ("which"), litStr ("who")] lower &&
      question_text.any (fun c => c = '?') then
    litStr ("short_answer")
  else if anyKeywordIn [litStr ("scenario"), litStr ("case study"),
      litStr ("situation")] lower then
    litStr ("scenario")
  else if anyKeywordIn [litStr ("demonstrate"), litStr ("show"), litStr ("perform"),
      litStr ("practice")] lower then
    litStr ("practical")
  else if question_text.any (fun c => c = '?') then litStr ("question")
  else litStr ("unknown")

/-- One line against the ordered choice-line patterns of
    `_extract_choices` (`re.match`, `re.IGNORECASE`); returns the group of
    the first matching pattern. -/
def choiceLineMatch (line : Str) : Option Str :=
  match line with
  | [] => none
  | c :: rest =>
    if isLetterAD c || isDigit14 c then
      match rest with
      | '.' :: rest2 => groupAfterWs rest2
      | ')' :: rest2 => groupAfterWs rest2
      | _ => none
    else if c = '-' ∨ c = 'â' ∨ c = '€' ∨ c = '¢' then groupAfterWs rest
    else if c = '(' then
      match rest with
      | c2 :: ')' :: rest2 =>
        if isLetterAD c2 || isDigit14 c2 then groupAfterWs rest2
        else none
      | _ => none
    else none

def isUpperAD (c : Char) : Bool := 'A' ≤ c && c ≤ 'D'

/-- `re.sub(r'^[A-D]\.\s*[A-D]\.\s*', 'A. ', t)` (case-sensitive,
    anchored, so at most one replacement). -/
def cleanDupLetterMarker (t : Str) : Str :=
  match t with
  | c1 :: '.' :: rest =>
    if isUpperAD c1 then
      match rest.dropWhile Char.isWhitespace with
      | c2 :: '.' :: rest2 =>
        if isUpperAD c2 then litStr ("A. ") ++ rest2.dropWhile Char.isWhitespace
        else t
      | _ => t
    else t
  | _ => t

/-- `re.sub(r'^[1-4]\.\s*[1-4]\.\s*', '1. ', t)`. -/
def cleanDupDigitMarker (t : Str) : Str :=
  match t with
  | c1 :: '.' :: rest =>
    if isDigit14 c1 then
      match rest.dropWhile Char.isWhitespace with
      | c2 :: '.' :: rest2 =>
        if isDigit14 c2 then litStr ("1. ") ++ rest2.dropWhile Char.isWhitespace
        else t
      | _ => t
    else t
  | _ => t

def extractChoicesLoop : List Str → List Str
  | [] => []
  | l :: rest =>
    let line := pstrip l
    if line = [] then extractChoicesLoop rest
    else
      match choiceLineMatch line with
      | some g =>
        let g2 := pstrip g
        if 2 < g2.length then
          cleanDupDigitMarker (cleanDupLetterMarker g2) :: extractChoicesLoop rest
        else extractChoicesLoop rest
      | none => extractChoicesLoop rest

/-- `ExtractAgent._extract_choices`. -/
def extractChoices (question_text : Str) (question_type : Str) : List Str :=
  if ¬ question_type = litStr ("mcq") then []
  else extractChoicesLoop (splitOnNl question_text)

/-- Stop condition of `_get_full_question_text`'s scan, the five boundary
    patterns (no IGNORECASE).  For `^\d+\.\s*\d+\s*\w+`, when the second
    digit run has length ≥ 2 the pattern always matches (backtracking can
    hand the last digit to `\w`); with a single digit a word character must
    follow the whitespace. -/
def matchNumDotNumWord (line : Str) : Bool :=
  let num := line.takeWhile Char.isDigit
  if num = [] then false
  else
    match line.drop num.length with
    | '.' :: rest =>
      let r2 := rest.dropWhile Char.isWhitespace
      let d := r2.takeWhile Char.isDigit
      if d = [] then false
      else if 2 ≤ d.length then true
      else wordAfterWs (r2.drop d.length)
    | _ => false

/-- `^\d+\.\s*\w+`. -/
def matchNumDotWord (line : Str) : Bool :=
  let num := line.takeWhile Char.isDigit
  if num = [] then false
  else
    match line.drop num.length with
    | '.' :: rest => wordAfterWs rest
    | _ => false

/-- `^[A-Z]\.\s*\w+` (case-sensitive). -/
def matchUpperDotWord (line : Str) : Bool :=
  match line with
  | c :: '.' :: rest => c.isUpper && wordAfterWs rest
  | _ => false

/-- `^Question\s+\d+:` (case-sensitive). -/
def matchQuestionColon (line : Str) : Bool :=
  if line.take 8 = litStr ("Question") then
    match line.drop 8 with
    | w :: _ =>
      if w.isWhitespace then
        let r2 := (line.drop 8).dropWhile Char.isWhitespace
        let d := r2.takeWhile Char.isDigit
        if d = [] then false
        else
          match r2.drop d.length with
          | ':' :: _ => true
          | _ => false
      else false
    | [] => false
  else false

/-- `^Q\d+\.\s*\w+` (case-sensitive). -/
def matchQNumDotWord (line : Str) : Bool :=
  match line with
  | 'Q' :: r =>
    let d := r.takeWhile Char.isDigit
    if d = [] then false
    else
      match r.drop d.length with
      | '.' :: rest => wordAfterWs rest
      | _ => false
  | _ => false

def isQuestionBoundary (line : Str) : Bool :=
  matchNumDotNumWord line || matchNumDotWord line || matchUpperDotWord line ||
    matchQuestionColon line || matchQNumDotWord line

def isNextLineBoundary (line : Str) : Bool :=
  matchNumDotWord line || matchQuestionColon line || matchQNumDotWord line

/-- The continuation-collecting loop of `_get_full_question_text`
    (`lastNonempty` tracks whether the last collected line is non-blank,
    i.e. Python's `question_lines[-1]`). -/
def collectContinuation (lastNonempty : Bool) : List Str → List Str
  | [] => []
  | l :: rest =>
    let line := pstrip l
    if isQuestionBoundary line then []
    else if line = [] ∧ (match rest with
        | nxt :: _ => isNextLineBoundary (pstrip nxt)
        | [] => false) = true then []
    else if line ≠ [] ∨ lastNonempty = true then
      line :: collectContinuation (!line.isEmpty) rest
    else collectContinuation lastNonempty rest

/-- `ExtractAgent._get_full_question_text`: the stripped current line plus
    following lines up to the next recognized boundary (or a blank line
    followed by one), joined with newlines and stripped. -/
def getFullQuestionText (cur : Str) (rest : List Str) : Str :=
  pstrip (List.intercalate ['\n'] (pstrip cur :: collectContinuation (!(pstrip cur).isEmpty) rest))

/-- The dict keys a question record may carry before validation (an absent
    key is `none`).  `qtype` models the `'type'` key. -/
structure QFields where
  id : Option Str
  question_id : Option Str
  text : Option Str
  question_number : Option Str
  line_number : Option Nat
  pattern_used : Option Str
  qtype : Option Str
  question_type : Option Str
  parent_question : Option Str
  choices : Option (List Str)
  confidence : Option Str
deriving DecidableEq

/-- A main-question container held in the `main_questions` dict: its own
    fields plus the accumulated `sub_questions` list. -/
structure MainQ where
  fields : QFields
  sub_questions : List QFields
deriving DecidableEq

/-- An entry of the `questions` list under construction.  A placeholder
    main question is appended as a REFERENCE into `main_questions`
    (Python appends the same dict object, which later `sub_questions`
    mutations keep updating), modelled by `mainRef`. -/
inductive QEntry where
  | plain (f : QFields)
  | mainRef (num : Str)
deriving DecidableEq

/-- A question record as returned to the caller: its fields and, for main
    questions only, the `sub_questions` key. -/
structure QuestionOut where
  fields : QFields
  sub_questions : Option (List QFields)
deriving DecidableEq

/-- The extraction loop state (`current_main` is assigned but never read in
    the source and is omitted). -/
structure ExtState where
  questions : List QEntry
  main_questions : List (Str × MainQ)
  used_ids : List Str
  question_counter : Nat

def mqLookup (l : List (Str × MainQ)) (k : Str) : Option MainQ :=
  match l.find? (fun kv => kv.1 = k) with
  | some kv => some kv.2
  | none => none

/-- Python dict assignment `d[k] = v` (updates in place, preserving
    insertion order). -/
def mqSet : List (Str × MainQ) → Str → MainQ → List (Str × MainQ)
  | [], k, v => [(k, v)]
  | (k', v') :: r, k, v =>
    if k' = k then (k', v) :: r else (k', v') :: mqSet r k v

/-- `main_questions[num]['sub_questions'].append(sub)`. -/
def mqAppendSub : List (Str × MainQ) → Str → QFields → List (Str × MainQ)
  | [], _, _ => []
  | (k', v') :: r, k, sub =>
    if k' = k then
      (k', { v' with sub_questions := v'.sub_questions ++ [sub] }) :: r
    else (k', v') :: mqAppendSub r k sub

/-- The `while f"Q{question_counter}" in used_ids` loop: first free counter
    value (the fuel `used.length + 1` always suffices — each blocked value
    is a distinct member of `used`). -/
def freeCounter : Nat → Nat → List Str → Nat
  | 0, k, _ => k
  | fuel + 1, k, used =>
    if (litStr ("Q") ++ natToStr k) ∈ used then freeCounter fuel (k + 1) used else k

/-- The `while f"{id}_{counter}" in used_ids` suffixing loop for duplicate
    sub-question ids. -/
def freeSuffix : Nat → Nat → Str → List Str → Str
  | 0, c, base, _ => base ++ '_' :: natToStr c
  | fuel + 1, c, base, used =>
    if (base ++ '_' :: natToStr c) ∈ used then freeSuffix fuel (c + 1) base used
    else base ++ '_' :: natToStr c

/-- The heading branch of the line loop: record (or overwrite) the main
    question container; headings are NOT appended to the questions list
    ("Don't add headings as standalone questions - only as containers"). -/
def applyHeadingBranch (i : Nat) (st : ExtState) (num qtext : Str) : ExtState :=
  let qid := litStr ("Q") ++ num
  let mf : QFields :=
    { id := some qid, question_id := some qid, text := some qtext
      question_number := some num, line_number := some (i + 1)
      pattern_used := some (litStr ("question_heading"))
      qtype := some (litStr ("heading")), question_type := some (litStr ("topic"))
      parent_question := none, choices := none, confidence := none }
  { st with main_questions := mqSet st.main_questions num { fields := mf, sub_questions := [] } }

/-- The sub-question branch of the line loop (reached only when the heading
    branch did not fire): build the sub-question record with its
    `parent_question`, attach it to its main question (synthesizing a
    placeholder main — appended to BOTH `main_questions` and `questions` —
    when the main was never seen), and append the sub-question. -/
def applySubBranch (i : Nat) (st : ExtState) (mainNum subNum subText : Str) : ExtState :=
  let question_type := classifyQuestionType subText
  let baseId := litStr ("Q") ++ mainNum ++ '.' :: subNum
  let sub_question_id :=
    if baseId ∈ st.used_ids then freeSuffix (st.used_ids.length + 1) 1 baseId st.used_ids
    else baseId
  let used2 := pySetAdd st.used_ids sub_question_id
  let sub : QFields :=
    { id := some sub_question_id, question_id := some sub_question_id
      text := some subText, question_number := some (mainNum ++ '.' :: subNum)
      line_number := some (i + 1), pattern_used := some (litStr ("sub_question"))
      qtype := some question_type, question_type := some question_type
      parent_question := some (litStr ("Q") ++ mainNum)
      choices := some (if question_type = litStr ("mcq")
        then extractChoices subText question_type else [])
      confidence := none }
  if (mqLookup st.main_questions mainNum).isSome then
    { st with main_questions := mqAppendSub st.main_questions mainNum sub
              used_ids := used2
              questions := st.questions ++ [QEntry.plain sub] }
  else
    let pf : QFields :=
      { id := some (litStr ("Q") ++ mainNum), question_id := some (litStr ("Q") ++ mainNum)
        text := some (litStr ("Question ") ++ mainNum), question_number := some mainNum
        line_number := some (i + 1)
        pattern_used := some (litStr ("main_question_placeholder"))
        qtype := some (litStr ("unknown")), question_type := none
        parent_question := none, choices := none, confidence := none }
    { st with
        main_questions := mqSet st.main_questions mainNum { fields := pf, sub_questions := [sub] }
        used_ids := used2
        questions := st.questions ++ [QEntry.mainRef mainNum, QEntry.plain sub] }

/-- The `question_patterns` table: each regex source string (stored into
    `pattern_used`) with its single-line matcher. -/
def questionPatterns : List (Str × (Str → Option Str)) :=
  [(litStr ("^\\d+\\.\\s*(.+?)(?=\\n\\d+\\.|\\n\\n|$)"), parseP0),
   (litStr ("^\\d+\\.\\s+\\d+\\s*(.+?)(?=\\n\\d+\\.|\\n\\n|$)"), parseP1),
   (litStr ("^[A-Z]\\.\\s*(.+?)(?=\\n[A-Z]\\.|\\n\\n|$)"), parseP2),
   (litStr ("^Question\\s+\\d+:\\s*(.+?)(?=\\nQuestion|\\n\\n|$)"), parseP3),
   (litStr ("^Q\\d+\\.\\s*(.+?)(?=\\nQ\\d+|\\n\\n|$)"), parseP4)]

/-- The generic-pattern loop of the line loop: the first pattern whose
    match (after stripping) exceeds 10 characters emits a question built
    from the full question text (current line plus continuations). -/
def runPatternLoop (i : Nat) (st : ExtState) (line : Str) (rest : List Str) :
    List (Str × (Str → Option Str)) → ExtState
  | [] => st
  | (pstr, pfn) :: ps =>
    match pfn line with
    | some g =>
      if 10 < (pstrip g).length then
        let full := getFullQuestionText line rest
        let qt := classifyQuestionType full
        let k := freeCounter (st.used_ids.length + 1) st.question_counter st.used_ids
        let qid := litStr ("Q") ++ natToStr k
        let qf : QFields :=
          { id := some qid, question_id := some qid, text := some full
            question_number := none, line_number := some (i + 1)
            pattern_used := some pstr, qtype := some qt, question_type := some qt
            parent_question := none, choices := some (extractChoices full qt)
            confidence := none }
        { st with questions := st.questions ++ [QEntry.plain qf]
                  used_ids := pySetAdd st.used_ids qid
                  question_counter := k + 1 }
      else runPatternLoop i st line rest ps
    | none => runPatternLoop i st line rest ps

/-- The per-line loop of `_extract_questions_from_text`: heading recognizer
    first, then (on fall-through) the sub-question recognizer, then the
    generic pattern list. -/
def extractLoop (i : Nat) (st : ExtState) : List Str → ExtState
  | [] => st
  | l :: rest =>
    let line := pstrip l
    if line = [] then extractLoop (i + 1) st rest
    else
      let headed : Option ExtState :=
        match parseMainHeading line with
        | some nt => if 5 < nt.2.length then some (applyHeadingBranch i st nt.1 nt.2) else none
        | none => none
      match headed with
      | some st2 => extractLoop (i + 1) st2 rest
      | none =>
        let subbed : Option ExtState :=
          match parseSubQuestion line with
          | some mst =>
            if 10 < mst.2.2.length then some (applySubBranch i st mst.1 mst.2.1 mst.2.2)
            else none
          | none => none
        match subbed with
        | some st2 => extractLoop (i + 1) st2 rest
        | none => extractLoop (i + 1) (runPatternLoop i st line rest questionPatterns) rest

/-- `ExtractAgent._extract_potential_questions`: last-resort detection of
    lines ending in `?` or containing an interrogative word. -/
def extractPotential (i cnt : Nat) : List Str → List QFields
  | [] => []
  | l :: rest =>
    let line := pstrip l
    if line = [] then extractPotential (i + 1) cnt rest
    else if (match line.reverse with | '?' :: _ => true | _ => false) ||
        anyKeywordIn [litStr ("what"), litStr ("how"), litStr ("why"), litStr ("when"),
          litStr ("where"), litStr ("which"), litStr ("who")] (plower line) then
      let qid := litStr ("Q") ++ natToStr (cnt + 1)
      let qt := classifyQuestionType line
      { id := some qid, question_id := some qid, text := some line
        question_number := some (natToStr (cnt + 1)), line_number := some (i + 1)
        pattern_used := some (litStr ("question_detection"))
        qtype := some qt, question_type := some qt
        parent_question := none, choices := some [], confidence := none }
        :: extractPotential (i + 1) (cnt + 1) rest
    else extractPotential (i + 1) cnt rest

/-- Materialize the questions list: a `mainRef` yields the (shared,
    by-now fully mutated) main-question dict with its `sub_questions`. -/
def materializeQuestions (mains : List (Str × MainQ)) : List QEntry → List QuestionOut
  | [] => []
  | QEntry.plain f :: r =>
    { fields := f, sub_questions := none } :: materializeQuestions mains r
  | QEntry.mainRef num :: r =>
    match mqLookup mains num with
    | some m => { fields := m.fields, sub_questions := some m.sub_questions }
        :: materializeQuestions mains r
    | none => materializeQuestions mains r

/-- `ExtractAgent._validate_questions` on one record (index `i` from
    `enumerate`): backfill every missing field. -/
def validateQuestion (i : Nat) (f : QFields) : QFields :=
  let qid := match f.question_id with
    | some v => v
    | none => f.id.getD (litStr ("Q") ++ natToStr (i + 1))
  let f1 := { f with question_id := some qid }
  let f2 := { f1 with id := some (f1.id.getD qid) }
  let fallbackText := litStr ("Question ") ++ natToStr (i + 1)
  let f3 := { f2 with text := some (match f2.text with
    | some t => if t = [] then fallbackText else t
    | none => fallbackText) }
  let f4 := { f3 with question_number := some (f3.question_number.getD (natToStr (i + 1))) }
  let f5 := { f4 with qtype := some (f4.qtype.getD (litStr ("unknown"))) }
  let qtFilled := some (f5.question_type.getD (f5.qtype.getD (litStr ("unknown"))))
  let f6 := { f5 with question_type := qtFilled }
  let f7 := { f6 with choices := some (f6.choices.getD []) }
  let f8 := { f7 with confidence := some (f7.confidence.getD (litStr ("medium"))) }
  let f9 := { f8 with line_number := some (f8.line_number.getD (i + 1)) }
  { f9 with pattern_used := some (f9.pattern_used.getD (litStr ("validated"))) }

/-- `_validate_questions` over the list (Python `enumerate`). -/
def validateQuestions (i : Nat) : List QuestionOut → List QuestionOut
  | [] => []
  | q :: rest =>
    { q with fields := validateQuestion i q.fields } :: validateQuestions (i + 1) rest

/-- `ExtractAgent._extract_questions_from_text`. -/
def extractQuestionsFromText (text : Str) : List QuestionOut :=
  let lines := splitOnNl text
  let fin := extractLoop 0 { questions := [], main_questions := [], used_ids := []
                             question_counter := 1 } lines
  let entries :=
    if fin.questions = [] then (extractPotential 0 0 lines).map QEntry.plain
    else fin.questions
  validateQuestions 0 (materializeQuestions fin.main_questions entries)

/-- `re.match(r'^\d+\.', line)`. -/
def matchNumDotPrefix (line : Str) : Bool :=
  let num := line.takeWhile Char.isDigit
  if num = [] then false
  else
    match line.drop num.length with
    | '.' :: _ => true
    | _ => false

/-- `re.match(r'^\d+\.\s*\d+', line)` / the group of
    `re.search(r'(\d+\.\s*\d+)', ...)` anchored at this position. -/
def numDotNumAt (s : Str) : Option Str :=
  let d1 := s.takeWhile Char.isDigit
  if d1 = [] then none
  else
    match s.drop d1.length with
    | '.' :: r =>
      let ws := r.takeWhile Char.isWhitespace
      let d2 := (r.drop ws.length).takeWhile Char.isDigit
      if d2 = [] then none else some (d1 ++ '.' :: (ws ++ d2))
    | _ => none

def searchNumDotNum : Str → Option Str
  | [] => none
  | c :: r =>
    match numDotNumAt (c :: r) with
    | some g => some g
    | none => searchNumDotNum r

/-- The body loop of `ExtractAgent._format_assessment_text` (`count` is
    `choice_count`; `in_choices` is assigned but never read and is
    omitted).  The `### Part` branch is unreachable (the `## Question`
    branch's `^\d+\.` subsumes its guard) but is modelled as written. -/
def formatLoop (count : Nat) : List Str → List Str
  | [] => []
  | l :: rest =>
    let line := pstrip l
    if line = [] ∨ (litStr ("PC-")).isPrefixOf line ∨ (litStr ("KE-")).isPrefixOf line then
      formatLoop count rest
    else if matchNumDotPrefix line then
      (litStr ("\n## Question ") ++ line.takeWhile Char.isDigit) ::
      (litStr ("**") ++
        pstrip (line.drop ((line.takeWhile (fun c => ¬ c = '.')).length + 1)) ++
        litStr ("**\n")) ::
      formatLoop 0 rest
    else if (numDotNumAt line).isSome then
      let part := (searchNumDotNum line).getD []
      (litStr ("### Part ") ++ part ++ litStr (" - ") ++ pstrip (line.drop part.length)) ::
      formatLoop 0 rest
    else if ¬ (litStr ("Select")).isPrefixOf line ∧ ¬ (litStr ("Choose")).isPrefixOf line ∧
        10 < line.length then
      (litStr ("- ") ++ [Char.ofNat (64 + (count + 1))] ++ litStr (") ") ++ line) ::
      formatLoop (count + 1) rest
    else formatLoop count rest

/-- `ExtractAgent._format_assessment_text`. -/
def formatAssessmentText (text : Str) : Str :=
  List.intercalate ['\n'] (litStr ("# Assessment Marking Guide\n") :: formatLoop 0 (splitOnNl text))

/- ===================================================================
   C2.  ChunkPlanner: _split_by_questions (178-202) and
   _group_into_chunks (204-238)
   =================================================================== -/

/-- Whether the zero-width pattern `(?=\d+\.)` matches at the head of this
    suffix: a digit run immediately followed by `.` (note this also fires
    INSIDE a multi-digit number, e.g. at the `2` of `12.`). -/
def splitHere : Str → Bool
  | [] => false
  | c :: rest =>
    c.isDigit &&
      (match (c :: rest).dropWhile Char.isDigit with
       | '.' :: _ => true
       | _ => false)

/-- `re.split(r'(?=\d+\.)', text)`: cut before every position where the
    lookahead holds (the leading empty piece Python produces when the text
    itself starts at a split point is not materialized here — it is dropped
    by the length filter anyway). -/
def reSplitLoop (acc : Str) : Str → List Str
  | [] => [acc.reverse]
  | c :: rest =>
    if splitHere (c :: rest) ∧ acc ≠ [] then
      acc.reverse :: reSplitLoop [c] rest
    else reSplitLoop (c :: acc) rest

def reSplitGroups (s : Str) : List Str := reSplitLoop [] s

/-- `ExtractAgent._split_by_questions`: split at question-number tokens,
    strip each piece, keep only pieces longer than 10 characters. -/
def splitByQuestions (text : Str) : List Str :=
  ((reSplitGroups text).map pstrip).filter (fun q => 10 < q.length)

/-- The packing loop of `_group_into_chunks` (`current` starts empty; a
    fragment that would overflow a non-empty chunk starts a new one;
    fragments inside a chunk are joined with a newline; each flushed chunk
    is stripped). -/
def groupLoop (max_size : Nat) (current : Str) : List Str → List Str
  | [] => if current ≠ [] then [pstrip current] else []
  | q :: qs =>
    if max_size < (current ++ q).length ∧ current ≠ [] then
      pstrip current :: groupLoop max_size q qs
    else if current = [] then groupLoop max_size q qs
    else groupLoop max_size (current ++ '\n' :: q) qs

/-- `ExtractAgent._group_into_chunks`. -/
def groupIntoChunks (questions : List Str) (max_size : Nat) : List Str :=
  groupLoop max_size [] questions

/-- `ExtractAgent._process_in_chunks` with no API key (each chunk goes
    through formatting and pattern extraction; per-chunk exception fallback
    has no effect in this total model). -/
def processInChunksNoKey (text : Str) : List QuestionOut :=
  let chunks := groupIntoChunks (splitByQuestions text) 3500
  validateQuestions 0
    ((chunks.map (fun ch => extractQuestionsFromText (formatAssessmentText ch))).flatten)

/-- `ExtractAgent.execute_from_text` run without an API key (the claim's
    premise), so every `if self.api_key` takes its pattern-extraction
    branch. -/
def executeFromTextNoKey (text : Str) : List QuestionOut :=
  if (pstrip text).length < 50 then []
  else if 5000 < text.length then processInChunksNoKey text
  else validateQuestions 0 (extractQuestionsFromText (formatAssessmentText text))

/- ===================================================================
   C6.  The extractor always returns a (well-formed) list
   =================================================================== -/

/-- A question record with every backfillable field present
    (`parent_question` is genuinely optional: `_validate_questions` does
    not backfill it). -/
def wellFormedQ (q : QuestionOut) : Bool :=
  q.fields.id.isSome && q.fields.question_id.isSome && q.fields.text.isSome &&
  q.fields.question_number.isSome && q.fields.line_number.isSome &&
  q.fields.pattern_used.isSome && q.fields.qtype.isSome &&
  q.fields.question_type.isSome && q.fields.choices.isSome &&
  q.fields.confidence.isSome

theorem validateQuestion_wellFormed (i : Nat) (q : QuestionOut) :
    wellFormedQ { q with fields := validateQuestion i q.fields } = true := rfl

theorem validateQuestions_all (l : List QuestionOut) (i : Nat) :
    (validateQuestions i l).all wellFormedQ = true := by
  induction l generalizing i with
  | nil => rfl
  | cons q rest ih =>
    rw [validateQuestions, List.all_cons, validateQuestion_wellFormed, ih, Bool.and_self]

theorem extractQuestionsFromText_all_wellFormed (text : Str) :
    (extractQuestionsFromText text).all wellFormedQ = true := by
  rw [extractQuestionsFromText]
  exact validateQuestions_all _ 0

/-- C6: for every input string, the no-API-key extraction entry point
    `execute_from_text` (and the pattern-based extractor
    `_extract_questions_from_text` it delegates to) is total — modelled as
    total functions, with every `try/except` absorbed into a value — and
    returns a list, possibly empty, all of whose records carry the full
    set of question fields (`_validate_questions` backfills each one). -/
theorem c6_extractor_total_and_wellformed (text : Str) :
    (executeFromTextNoKey text).all wellFormedQ = true ∧
    (extractQuestionsFromText text).all wellFormedQ = true := by
  refine ⟨?_, extractQuestionsFromText_all_wellFormed text⟩
  rw [executeFromTextNoKey]
  split
  · rfl
  · split
    · rw [processInChunksNoKey]
      exact validateQuestions_all _ 0
    · exact validateQuestions_all _ 0

/-- Witness for C6: on a concrete short input the entry point returns the
    empty (vacuously well-formed) list, and on the empty input the
    pattern extractor returns a list whose records are well-formed. -/
theorem c6_extractor_total_and_wellformed_witness :
    ((executeFromTextNoKey (litStr ("hi"))).all wellFormedQ = true ∧
      (extractQuestionsFromText (litStr ("hi"))).all wellFormedQ = true) ∧
    executeFromTextNoKey (litStr ("hi")) = [] :=
  ⟨c6_extractor_total_and_wellformed (litStr ("hi")), rfl⟩

/- ===================================================================
   C3.  Parent-id invariant of _extract_questions_from_text
   =================================================================== -/

/-- C3 is refuted by the code: the heading recognizer
    `^(\d+)\.\s*(.+?)$` runs before the sub-question recognizer
    `^(\d+)\.\s*(\d+)\s*(.+?)$` and (with its `> 5` length guard) also
    matches every sub-question line, so the branch that sets
    `parent_question` and synthesizes placeholder parents is
    unreachable.  First conjunct: the sub-question pattern itself does
    match the spec scenario line `1.1 List three hand hygiene steps`
    (with text well over the 10-character guard).  Second conjunct: on
    the spec's three-line scenario the extractor returns NO questions at
    all — no sub-questions with `parent_question`, no main questions.
    Third conjunct: an orphan sub-question line likewise yields no
    synthesized placeholder parent, just the empty list. -/
theorem c3_parent_id_invariant_refuted :
    parseSubQuestion (litStr ("1.1 List three hand hygiene steps")) =
      some (litStr ("1"), litStr ("1"), litStr ("List three hand hygiene steps")) ∧
    extractQuestionsFromText
      (litStr ("1. Explain infection control.\n1.1 List three hand hygiene steps\n1.2 Demonstrate correct glove removal")) = [] ∧
    extractQuestionsFromText (litStr ("5.2 Describe the procedure in detail")) = [] :=
  ⟨rfl, rfl, rfl⟩

/- ===================================================================
   C10.  ExtractAgent.execute on a missing file / unsupported extension
   =================================================================== -/

/-- The part of the path after the last `/`. -/
def baseName (p : Str) : Str :=
  (p.reverse.takeWhile (fun c => ¬ c = '/')).reverse

/-- `os.path.splitext(p)[1]`: the suffix of the basename from its last
    dot, empty when the basename has no dot or only leading dots. -/
def splitextExt (p : Str) : Str :=
  let b := baseName p
  let e := b.reverse.takeWhile (fun c => ¬ c = '.')
  if e.length = b.length then []
  else if (b.take (b.length - e.length - 1)).all (fun c => c = '.') then []
  else '.' :: e.reverse

/-- The extension dispatch of `ExtractAgent.execute` (the `else` branch
    raises `ValueError`, modelled as an error value). -/
def extDispatch (readDocx readPdf readDoc : Str → Except Str Str)
    (file_path ext : Str) : Except Str Str :=
  if ext = litStr (".docx") then readDocx file_path
  else if ext = litStr (".pdf") then readPdf file_path
  else if ext = litStr (".doc") then readDoc file_path
  else Except.error (litStr ("Unsupported file type: ") ++ ext)

/-- `ExtractAgent.execute` with no API key.  The filesystem is abstracted
    by `fileExists` and one reader per supported extension (each reader
    returns the document text or an error); every exception raised in the
    body — `FileNotFoundError`, `ValueError` for an unsupported
    extension, or a reader failure — lands in the catch-all and becomes
    the empty list. -/
def extractAgentExecuteNoKey (fileExists : Str → Bool)
    (readDocx readPdf readDoc : Str → Except Str Str) (file_path : Str) :
    List QuestionOut :=
  if fileExists file_path = false then []
  else
    match extDispatch readDocx readPdf readDoc file_path (plower (splitextExt file_path)) with
    | Except.error _ => []
    | Except.ok text =>
      if (pstrip text).length < 50 then []
      else validateQuestions 0 (extractQuestionsFromText text)

theorem extDispatch_error (readDocx readPdf readDoc : Str → Except Str Str)
    (file_path ext : Str)
    (h : ext ∉ [litStr (".docx"), litStr (".pdf"), litStr (".doc")]) :
    extDispatch readDocx readPdf readDoc file_path ext =
      Except.error (litStr ("Unsupported file type: ") ++ ext) := by
  rw [extDispatch,
    if_neg (fun hx => h (by rw [hx]; exact (by decide))),
    if_neg (fun hx => h (by rw [hx]; exact (by decide))),
    if_neg (fun hx => h (by rw [hx]; exact (by decide)))]

/-- C10: whenever the file does not exist, or its (lower-cased) extension
    is none of `.docx`, `.pdf`, `.doc`, `ExtractAgent.execute` returns
    the empty list — the internal `FileNotFoundError`/`ValueError` is
    absorbed by the catch-all — regardless of the reader behaviour. -/
theorem c10_execute_empty_on_bad_file (fileExists : Str → Bool)
    (readDocx readPdf readDoc : Str → Except Str Str) (file_path : Str)
    (h : fileExists file_path = false ∨
      plower (splitextExt file_path) ∉
        [litStr (".docx"), litStr (".pdf"), litStr (".doc")]) :
    extractAgentExecuteNoKey fileExists readDocx readPdf readDoc file_path = [] := by
  rw [extractAgentExecuteNoKey]
  rcases h with h | h
  · rw [if_pos h]
  · by_cases hf : fileExists file_path = false
    · rw [if_pos hf]
    · rw [if_neg hf, extDispatch_error readDocx readPdf readDoc file_path _ h]

/-- Witness for C10: a present `.txt` file (readers would even succeed)
    still yields the empty list, and so does an absent `.docx` file. -/
theorem c10_execute_empty_on_bad_file_witness :
    extractAgentExecuteNoKey (fun _ => true)
      (fun _ => Except.ok []) (fun _ => Except.ok []) (fun _ => Except.ok [])
      (litStr ("notes.txt")) = [] ∧
    extractAgentExecuteNoKey (fun _ => false)
      (fun _ => Except.ok []) (fun _ => Except.ok []) (fun _ => Except.ok [])
      (litStr ("report.docx")) = [] :=
  ⟨c10_execute_empty_on_bad_file _ _ _ _ _ (Or.inr (by decide)),
   c10_execute_empty_on_bad_file _ _ _ _ _ (Or.inl rfl)⟩

/- ===================================================================
   C8.  ValidationAgent.analyze_coverage_quality (validation_agent.py
   485-747): element coverage and remediation tasks
   =================================================================== -/

def pupper (s : Str) : Str := s.map Char.toUpper

/-- Exact rational addition, written out through `mkRat` (extensionally
    the `+` of `ℚ`; this spelling evaluates by kernel reduction). -/
def ratAdd (a b : ℚ) : ℚ := mkRat (a.num * b.den + b.num * a.den) (a.den * b.den)

/-- An entry of the `element_coverage` dict. -/
structure CovEntry where
  count : Nat
  confidence_sum : ℚ
  questions : List (Option Str)
deriving DecidableEq

/-- One element-coverage bump: create the entry on first sight (Python
    dict insertion order — new keys go to the back), then increment. -/
def covBump (cov : List (Str × CovEntry)) (eid : Str) (conf : ℚ)
    (qid : Option Str) : List (Str × CovEntry) :=
  match cov with
  | [] => [(eid, { count := 1, confidence_sum := conf, questions := [qid] })]
  | (k, v) :: r =>
    if k = eid then
      (k, { count := v.count + 1, confidence_sum := ratAdd v.confidence_sum conf
            questions := v.questions ++ [qid] }) :: r
    else (k, v) :: covBump r eid conf qid

/-- The `element_coverage` accumulator of `analyze_coverage_quality`
    (the source's single loop over `actual_mappings` updates several
    independent accumulators in one pass; each is modelled as its own
    fold in the same iteration order). -/
def elementCoverage (mappings : List MappingT) : List (Str × CovEntry) :=
  mappings.foldl
    (fun cov m => (analysisOf m).mapped_elements.foldl
      (fun c e => covBump c (e.element_id.getD (litStr ("Unknown")))
        (e.confidence_score.getD 0) m.question_id) cov) []

/-- Python `d[k] = d.get(k, 0) + 1` on a counter dict. -/
def dictBump (d : List (Str × Nat)) (k : Str) : List (Str × Nat) :=
  match d with
  | [] => [(k, 1)]
  | (k', v) :: r => if k' = k then (k', v + 1) :: r else (k', v) :: dictBump r k

def dictGetNat (d : List (Str × Nat)) (k : Str) : Nat :=
  match d.find? (fun kv => kv.1 = k) with
  | some kv => kv.2
  | none => 0

/-- The `assessment_methods` counter (key `assessment_type`, default `KBA`). -/
def assessmentMethods (mappings : List MappingT) : List (Str × Nat) :=
  mappings.foldl (fun d m => dictBump d (m.assessment_type.getD (litStr ("KBA")))) []

/-- `mapping.get('bloom_taxonomy', \x7b\x7d).get('primary_level', 'UNDERSTAND')`. -/
def bloomOf (m : MappingT) : Str := m.bloom_primary_level.getD (litStr ("UNDERSTAND"))

/-- The `bloom_levels` counter. -/
def bloomLevels (mappings : List MappingT) : List (Str × Nat) :=
  mappings.foldl (fun d m => dictBump d (bloomOf m)) []

def higherOrderLevels : List Str :=
  [litStr ("APPLY"), litStr ("ANALYZE"), litStr ("EVALUATE"), litStr ("CREATE")]

/-- `non_higher_order_qids`. -/
def nonHigherOrderQids (mappings : List MappingT) : List (Option Str) :=
  (mappings.filter (fun m => pupper (bloomOf m) ∉ higherOrderLevels)).map
    (fun m => m.question_id)

/-- `missing_evidence_qids` (a question lacks evidence alignment when both
    its KE and PE lists are empty or absent). -/
def missingEvidenceQids (mappings : List MappingT) : List (Option Str) :=
  (mappings.filter (fun m => (analysisOf m).mapped_knowledge_evidence = [] ∧
    (analysisOf m).mapped_performance_evidence = [])).map (fun m => m.question_id)

/-- The per-question `scores` list: confidence of every mapped item over
    the four categories (missing scores read as 0). -/
def mappingScores (m : MappingT) : List ℚ :=
  (analysisOf m).mapped_elements.map (fun e => e.confidence_score.getD 0) ++
  (analysisOf m).mapped_performance_criteria.map (fun e => e.confidence_score.getD 0) ++
  (analysisOf m).mapped_performance_evidence.map (fun e => e.confidence_score.getD 0) ++
  (analysisOf m).mapped_knowledge_evidence.map (fun e => e.confidence_score.getD 0)

/-- `scores and (sum(scores) / len(scores)) < 0.6`: the mean of the
    scores is below 3/5 (`sum/len < 3/5` is written as the exact
    comparison `sum.num / (sum.den * len) < 3/5`, valid since `len > 0`
    on the branch where it is evaluated). -/
def isLowConfidence (m : MappingT) : Bool :=
  let s := (mappingScores m).foldl ratAdd (mkRat 0 1)
  !(mappingScores m).isEmpty &&
    Rat.blt (mkRat s.num (s.den * (mappingScores m).length)) (mkRat 3 5)

/-- `low_confidence_qids`. -/
def lowConfidenceQids (mappings : List MappingT) : List (Option Str) :=
  (mappings.filter isLowConfidence).map (fun m => m.question_id)

/-- One remediation task (all the keys the source writes). -/
structure RemediationTask where
  id : Str
  standard_code : Str
  category : Str
  severity : Str
  summary : Str
  rationale : Str
  impacted_elements : List Str
  impacted_questions : List (Option Str)
  suggested_actions : List Str
  owner_role : Str
  due_days : Nat
  acceptance_criteria : List Str
deriving DecidableEq

/-- The under-covered-element task (validation_agent.py 616-635). -/
def elementTask (eid : Str) (c : CovEntry) : RemediationTask :=
  { id := litStr ("remed_element_") ++ eid
    standard_code := litStr ("1.8")
    category := litStr ("coverage")
    severity := litStr ("moderate")
    summary := litStr ("Increase coverage for ") ++ eid
    rationale := eid ++ litStr (" has only ") ++ natToStr c.count ++ litStr (" question(s).")
    impacted_elements := [eid]
    impacted_questions := c.questions
    suggested_actions :=
      [litStr ("Draft 1–2 additional assessment items aligned to this element"),
       litStr ("Ensure at least one Performance Criterion under this element is explicitly assessed")]
    owner_role := litStr ("assessor")
    due_days := 7
    acceptance_criteria :=
      [litStr ("At least 2 questions map to the element"),
       litStr ("Minimum one PC under the element covered with >=70% mapping confidence")] }

/-- The under-covered-element pass: one task per `element_coverage` entry
    with `count < 2` (iteration order = dict insertion order). -/
def elementTasks (mappings : List MappingT) : List RemediationTask :=
  ((elementCoverage mappings).filter (fun kv => kv.2.count < 2)).map
    (fun kv => elementTask kv.1 kv.2)

/-- `list(element_coverage.keys())`. -/
def covKeys (mappings : List MappingT) : List Str :=
  (elementCoverage mappings).map (fun kv => kv.1)

def pepTask (mappings : List MappingT) : RemediationTask :=
  { id := litStr ("remed_method_pep")
    standard_code := litStr ("1.4")
    category := litStr ("assessment_method")
    severity := litStr ("moderate")
    summary := litStr ("Increase practical/workplace evidence (PEP)")
    rationale := litStr ("PEP items are ") ++
      natToStr (dictGetNat (assessmentMethods mappings) (litStr ("PEP"))) ++
      litStr (" of ") ++ natToStr mappings.length ++ litStr ("; target at least 20%.")
    impacted_elements := covKeys mappings
    impacted_questions := nonHigherOrderQids mappings
    suggested_actions :=
      [litStr ("Add 2–3 workplace scenario tasks with observable performance evidence"),
       litStr ("Collect third-party reports or logs demonstrating competency in context")]
    owner_role := litStr ("assessor")
    due_days := 10
    acceptance_criteria := [litStr ("PEP items reach >=20% of total questions")] }

def bloomHigherTask (mappings : List MappingT) : RemediationTask :=
  { id := litStr ("remed_bloom_higher")
    standard_code := litStr ("1.4")
    category := litStr ("cognitive_progression")
    severity := litStr ("moderate")
    summary := litStr ("Add higher-order questions (ANALYZE/EVALUATE/CREATE)")
    rationale := litStr ("Higher-order questions below 10% threshold.")
    impacted_elements := covKeys mappings
    impacted_questions := nonHigherOrderQids mappings
    suggested_actions :=
      [litStr ("Add 2–3 evaluation-level prompts requiring rationale and justification"),
       litStr ("Convert 1–2 recall items into scenario-based analysis tasks")]
    owner_role := litStr ("assessor")
    due_days := 7
    acceptance_criteria := [litStr (">=10% items at ANALYZE/EVALUATE/CREATE levels")] }

def evidenceTask (mappings : List MappingT) : RemediationTask :=
  { id := litStr ("remed_evidence_alignment")
    standard_code := litStr ("1.5")
    category := litStr ("evidence")
    severity := litStr ("high")
    summary := litStr ("Add Knowledge/Performance Evidence alignment")
    rationale := litStr ("Some questions lack explicit KE/PE mapping.")
    impacted_elements := covKeys mappings
    impacted_questions := missingEvidenceQids mappings
    suggested_actions :=
      [litStr ("Amend items to reference specific KE/PE requirements"),
       litStr ("Attach marking guidance explaining how evidence is judged sufficient/authentic/current")]
    owner_role := litStr ("assessor")
    due_days := 5
    acceptance_criteria := [litStr ("All items have KE or PE linkage documented")] }

def lowConfTask (mappings : List MappingT) : RemediationTask :=
  { id := litStr ("remed_low_confidence")
    standard_code := litStr ("1.6")
    category := litStr ("judgement_quality")
    severity := litStr ("medium")
    summary := litStr ("Refine low-confidence mappings")
    rationale := litStr ("Average mapping confidence <60% for listed items.")
    impacted_elements := covKeys mappings
    impacted_questions := lowConfidenceQids mappings
    suggested_actions :=
      [litStr ("Clarify wording of the question to target the intended element/PC"),
       litStr ("Add assessor notes with explicit evidence indicators")]
    owner_role := litStr ("validator")
    due_days := 5
    acceptance_criteria := [litStr ("Re-mapped items reach >=70% confidence")] }

/-- The four conditional tasks appended after the per-element pass (the
    two ratio guards `pep/max(1,total) < 0.2` and
    `higher/max(1,total) < 0.1` are written as exact `mkRat`
    comparisons). -/
def condTasks (mappings : List MappingT) : List RemediationTask :=
  (if Rat.blt (mkRat (dictGetNat (assessmentMethods mappings) (litStr ("PEP")))
      (max 1 mappings.length)) (mkRat 1 5) then [pepTask mappings] else []) ++
  (if Rat.blt (mkRat (dictGetNat (bloomLevels mappings) (litStr ("EVALUATE")) +
        dictGetNat (bloomLevels mappings) (litStr ("ANALYZE")) +
        dictGetNat (bloomLevels mappings) (litStr ("CREATE")))
      (max 1 mappings.length)) (mkRat 1 10) then [bloomHigherTask mappings] else []) ++
  (if ¬ missingEvidenceQids mappings = [] then [evidenceTask mappings] else []) ++
  (if ¬ lowConfidenceQids mappings = [] then [lowConfTask mappings] else [])

/-- The `remediation_tasks` list of the returned coverage analysis. -/
def remediationTasks (mappings : List MappingT) : List RemediationTask :=
  elementTasks mappings ++ condTasks mappings

/-- C8 concrete instance: one mapping attributing one question to element
    E1 (confidence 0.8). -/
def c8Mapping : MappingT :=
  { question_id := some (litStr ("Q1"))
    assessment_type := some (litStr ("KBA"))
    bloom_primary_level := none
    mapping_analysis := some
      { mapped_elements :=
          [{ element_id := some (litStr ("E1")), element_code := none
             element_description := none, confidence_score := some (mkRat 4 5) }]
        mapped_performance_criteria := []
        mapped_performance_evidence := []
        mapped_knowledge_evidence := [] }
    mapping_source := none }

/-- C8 concrete instance: the unit's `uoc_data` holds TWO elements, E1 and
    E2; E2 has zero attributed questions. -/
def c8Uoc : UocDataT :=
  { uoc_code := some (litStr ("HLTINF006")), title := none
    elements :=
      [{ id := some (litStr ("E1")), element_id := none, code := none
         description := none },
       { id := some (litStr ("E2")), element_id := none, code := none
         description := none }]
    performance_criteria := [], performance_evidence := [], knowledge_evidence := [] }

/-- C8: amended to what the code does — the per-element remediation pass
    ranges over the `element_coverage` dict, which is built from the
    mappings alone; so every element id that APPEARS in some mapping with
    fewer than 2 attributed questions gets its moderate-severity
    remediation task (with id `remed_element_<id>`, two suggested actions
    and two acceptance criteria), while standard components with zero
    attributed questions are never entered into `element_coverage` and get
    no task (see the counterexample). -/
theorem c8_moderate_task_amended (mappings : List MappingT) (eid : Str) (c : CovEntry)
    (hmem : (eid, c) ∈ elementCoverage mappings) (hc : c.count < 2) :
    elementTask eid c ∈ remediationTasks mappings ∧
    (elementTask eid c).id = litStr ("remed_element_") ++ eid ∧
    (elementTask eid c).severity = litStr ("moderate") ∧
    (elementTask eid c).suggested_actions.length = 2 ∧
    (elementTask eid c).acceptance_criteria.length = 2 := by
  refine ⟨?_, rfl, rfl, rfl, rfl⟩
  rw [remediationTasks]
  apply List.mem_append_left
  rw [elementTasks]
  exact List.mem_map_of_mem _ (List.mem_filter.mpr ⟨hmem, decide_eq_true hc⟩)

/-- Counterexample to C8 as stated: element E2 belongs to the standard
    (second conjunct) and has zero attributed questions in the mapping set
    (third conjunct: it never enters `element_coverage`), yet NO
    remediation task `remed_element_E2` is emitted (fourth conjunct) — only
    the singly-covered E1 gets one (fifth conjunct). -/
theorem c8_moderate_task_counterexample :
    (elementCoverage [c8Mapping]).map (fun kv => kv.1) = [litStr ("E1")] ∧
    c8Uoc.elements.map (fun comp => comp.id) =
      [some (litStr ("E1")), some (litStr ("E2"))] ∧
    (elementCoverage [c8Mapping]).all (fun kv => ¬ kv.1 = litStr ("E2")) = true ∧
    (remediationTasks [c8Mapping]).all
      (fun t => ¬ t.id = litStr ("remed_element_E2")) = true ∧
    (remediationTasks [c8Mapping]).any
      (fun t => t.id = litStr ("remed_element_E1")) = true := by
  decide

/-- Witness for the amended C8: E1 carries exactly one attributed question
    in the concrete mapping set, and its moderate task is emitted. -/
theorem c8_moderate_task_amended_witness :
    elementTask (litStr ("E1"))
        { count := 1, confidence_sum := mkRat 4 5, questions := [some (litStr ("Q1"))] } ∈
      remediationTasks [c8Mapping] ∧
    (elementTask (litStr ("E1"))
        { count := 1, confidence_sum := mkRat 4 5, questions := [some (litStr ("Q1"))] }).id =
      litStr ("remed_element_") ++ litStr ("E1") ∧
    (elementTask (litStr ("E1"))
        { count := 1, confidence_sum := mkRat 4 5, questions := [some (litStr ("Q1"))] }).severity =
      litStr ("moderate") ∧
    (elementTask (litStr ("E1"))
        { count := 1, confidence_sum := mkRat 4 5,
          questions := [some (litStr ("Q1"))] }).suggested_actions.length = 2 ∧
    (elementTask (litStr ("E1"))
        { count := 1, confidence_sum := mkRat 4 5,
          questions := [some (litStr ("Q1"))] }).acceptance_criteria.length = 2 :=
  c8_moderate_task_amended [c8Mapping] (litStr ("E1"))
    { count := 1, confidence_sum := mkRat 4 5, questions := [some (litStr ("Q1"))] }
    (by decide) (by decide)

/- ===================================================================
   C2.  Chunk round-trip: lemmas about _split_by_questions /
   _group_into_chunks
   =================================================================== -/

/-- The joining discipline of `_group_into_chunks`: fragments accumulated
    into one chunk are separated by single newlines. -/
def joinNl : List Str → Str
  | [] => []
  | [f] => f
  | f :: g :: r => f ++ '\n' :: joinNl (g :: r)

/-- First character exists and is not whitespace. -/
def headNonWs : Str → Bool
  | [] => false
  | c :: _ => !c.isWhitespace

theorem headNonWs_ne_nil {f : Str} (h : headNonWs f = true) : f ≠ [] := by
  cases f with
  | nil => exact absurd h (by decide)
  | cons c r => exact List.cons_ne_nil c r

theorem headNonWs_append_left {x : Str} (y : Str) (h : headNonWs x = true) :
    headNonWs (x ++ y) = true := by
  cases x with
  | nil => exact absurd h (by decide)
  | cons c r => exact h

theorem headNonWs_dropWhileWs (l : Str) :
    List.dropWhile Char.isWhitespace l = [] ∨
      headNonWs (List.dropWhile Char.isWhitespace l) = true := by
  induction l with
  | nil => exact Or.inl rfl
  | cons c r ih =>
    rw [List.dropWhile_cons]
    by_cases hc : Char.isWhitespace c = true
    · rw [if_pos hc]
      exact ih
    · rw [if_neg hc]
      right
      simp [headNonWs, hc]

theorem dropWhileWs_suffix (l : Str) :
    ∃ t, l = t ++ List.dropWhile Char.isWhitespace l := by
  induction l with
  | nil => exact ⟨[], rfl⟩
  | cons c r ih =>
    rw [List.dropWhile_cons]
    by_cases hc : Char.isWhitespace c = true
    · rw [if_pos hc]
      obtain ⟨t, ht⟩ := ih
      exact ⟨c :: t, by rw [List.cons_append, ← ht]⟩
    · rw [if_neg hc]
      exact ⟨[], rfl⟩

theorem headNonWs_of_prefix_eq {x a t : Str} (hx : headNonWs a = true)
    (hp : a = x ++ t) (hxne : x ≠ []) : headNonWs x = true := by
  cases x with
  | nil => exact absurd rfl hxne
  | cons c cs =>
    rw [hp] at hx
    exact hx

/-- A stripped string is either empty or clean on both ends. -/
theorem pstrip_clean (g : Str) :
    pstrip g = [] ∨
      (headNonWs (pstrip g) = true ∧ headNonWs (pstrip g).reverse = true) := by
  rcases headNonWs_dropWhileWs ((g.dropWhile Char.isWhitespace).reverse) with hb | hb
  · left
    rw [pstrip, hb, List.reverse_nil]
  · right
    have hrev : (pstrip g).reverse =
        (g.dropWhile Char.isWhitespace).reverse.dropWhile Char.isWhitespace := by
      rw [pstrip, List.reverse_reverse]
    refine ⟨?_, by rw [hrev]; exact hb⟩
    obtain ⟨t, ht⟩ := dropWhileWs_suffix ((g.dropWhile Char.isWhitespace).reverse)
    have ha : g.dropWhile Char.isWhitespace = (pstrip g) ++ t.reverse := by
      rw [pstrip]
      calc g.dropWhile Char.isWhitespace
          = (g.dropWhile Char.isWhitespace).reverse.reverse := (List.reverse_reverse _).symm
        _ = (t ++ (g.dropWhile Char.isWhitespace).reverse.dropWhile Char.isWhitespace).reverse := by
              rw [← ht]
        _ = ((g.dropWhile Char.isWhitespace).reverse.dropWhile Char.isWhitespace).reverse ++
              t.reverse := by rw [List.reverse_append]
    have hb_ne : pstrip g ≠ [] := by
      intro hnil
      have h2 : (pstrip g).reverse = ([] : Str) := by rw [hnil]; rfl
      rw [hrev] at h2
      rw [h2] at hb
      exact absurd hb (by decide)
    have hga : headNonWs (g.dropWhile Char.isWhitespace) = true := by
      rcases headNonWs_dropWhileWs g with h0 | h0
      · exact absurd (by rw [pstrip, h0]; rfl) hb_ne
      · exact h0
    exact headNonWs_of_prefix_eq hga ha hb_ne

/-- Strip is the identity on a string that is clean on both ends. -/
theorem clean_pstrip_self (f : Str) (h1 : headNonWs f = true)
    (h2 : headNonWs f.reverse = true) : pstrip f = f := by
  have d1 : f.dropWhile Char.isWhitespace = f := by
    cases f with
    | nil => rfl
    | cons c cs =>
      rw [List.dropWhile_cons, if_neg]
      intro hcw
      exact absurd h1 (by simp [headNonWs, hcw])
  have d2 : f.reverse.dropWhile Char.isWhitespace = f.reverse := by
    cases hfr : f.reverse with
    | nil => rfl
    | cons c cs =>
      rw [List.dropWhile_cons, if_neg]
      intro hcw
      rw [hfr] at h2
      exact absurd h2 (by simp [headNonWs, hcw])
  rw [pstrip, d1, d2, List.reverse_reverse]

theorem joinNl_append_last (grp : List Str) (q : Str) (h : grp ≠ []) :
    joinNl (grp ++ [q]) = joinNl grp ++ '\n' :: q := by
  induction grp with
  | nil => exact absurd rfl h
  | cons f r ih =>
    cases r with
    | nil => rfl
    | cons g r' =>
      show f ++ '\n' :: joinNl ((g :: r') ++ [q]) =
        (f ++ '\n' :: joinNl (g :: r')) ++ '\n' :: q
      rw [ih (List.cons_ne_nil g r')]
      simp [List.append_assoc]

theorem headNonWs_joinNl (grp : List Str) (hne : grp ≠ [])
    (h : ∀ f ∈ grp, headNonWs f = true) : headNonWs (joinNl grp) = true := by
  cases grp with
  | nil => exact absurd rfl hne
  | cons f r =>
    cases r with
    | nil => exact h f (List.mem_singleton.mpr rfl)
    | cons g r' =>
      have hf := h f (List.mem_cons_self f _)
      cases f with
      | nil => exact absurd hf (by decide)
      | cons c cs => exact hf

theorem joinNl_ne_nil (grp : List Str) (hne : grp ≠ [])
    (h : ∀ f ∈ grp, headNonWs f = true) : joinNl grp ≠ [] :=
  headNonWs_ne_nil (headNonWs_joinNl grp hne h)

theorem lastNonWs_joinNl (grp : List Str) (hne : grp ≠ [])
    (h : ∀ f ∈ grp, headNonWs f.reverse = true) :
    headNonWs (joinNl grp).reverse = true := by
  induction grp with
  | nil => exact absurd rfl hne
  | cons f r ih =>
    cases r with
    | nil => exact h f (List.mem_singleton.mpr rfl)
    | cons g r' =>
      have hr := ih (List.cons_ne_nil g r') (fun x hx => h x (List.mem_cons_of_mem f hx))
      show headNonWs (f ++ '\n' :: joinNl (g :: r')).reverse = true
      rw [List.reverse_append, List.reverse_cons]
      exact headNonWs_append_left _ (headNonWs_append_left _ hr)

theorem pstrip_joinNl (grp : List Str) (hne : grp ≠ [])
    (h : ∀ f ∈ grp, headNonWs f = true ∧ headNonWs f.reverse = true) :
    pstrip (joinNl grp) = joinNl grp :=
  clean_pstrip_self _ (headNonWs_joinNl grp hne (fun f hf => (h f hf).1))
    (lastNonWs_joinNl grp hne (fun f hf => (h f hf).2))

/-- The packing loop distributes its input fragments into consecutive
    nonempty groups, each chunk being the newline-join of one group:
    nothing is dropped, duplicated or reordered. -/
theorem groupLoop_partition (m : Nat) :
    ∀ (qs grp : List Str), grp ≠ [] →
    (∀ f ∈ grp ++ qs, headNonWs f = true ∧ headNonWs f.reverse = true) →
    ∃ qss : List (List Str), qss.flatten = grp ++ qs ∧ (∀ g ∈ qss, g ≠ []) ∧
      groupLoop m (joinNl grp) qs = qss.map joinNl := by
  intro qs
  induction qs with
  | nil =>
    intro grp hg hc
    refine ⟨[grp], by simp, ?_, ?_⟩
    · intro g hgm
      rw [List.mem_singleton.mp hgm]
      exact hg
    · rw [groupLoop,
        if_pos (joinNl_ne_nil grp hg (fun f hf => (hc f (List.mem_append_left _ hf)).1)),
        pstrip_joinNl grp hg (fun f hf => hc f (List.mem_append_left _ hf))]
      rfl
  | cons q qs ih =>
    intro grp hg hc
    by_cases hov : m < (joinNl grp ++ q).length ∧ joinNl grp ≠ []
    · obtain ⟨qss', hj', hne', hgl'⟩ := ih [q] (List.cons_ne_nil q [])
        (fun f hf => hc f (List.mem_append_right _ hf))
      refine ⟨grp :: qss', ?_, ?_, ?_⟩
      · rw [List.flatten_cons, hj']
        rfl
      · intro g hgm
        rcases List.mem_cons.mp hgm with h0 | h0
        · rw [h0]; exact hg
        · exact hne' g h0
      · rw [groupLoop, if_pos hov,
          pstrip_joinNl grp hg (fun f hf => hc f (List.mem_append_left _ hf)),
          List.map_cons]
        exact congrArg (List.cons (joinNl grp)) hgl'
    · have hgl_ne : joinNl grp ≠ [] :=
        joinNl_ne_nil grp hg (fun f hf => (hc f (List.mem_append_left _ hf)).1)
      obtain ⟨qss', hj', hne', hgl'⟩ := ih (grp ++ [q])
        (by simp)
        (by intro f hf
            apply hc
            rw [List.append_assoc] at hf
            exact hf)
      refine ⟨qss', ?_, hne', ?_⟩
      · rw [hj', List.append_assoc]
        rfl
      · rw [groupLoop, if_neg hov, if_neg (fun h0 => hgl_ne h0),
          ← joinNl_append_last grp q hg]
        exact hgl'

/-- `_group_into_chunks` partitions its fragment list into chunks. -/
theorem groupIntoChunks_partition (m : Nat) (qs : List Str)
    (hc : ∀ f ∈ qs, headNonWs f = true ∧ headNonWs f.reverse = true) :
    ∃ qss : List (List Str), qss.flatten = qs ∧ (∀ g ∈ qss, g ≠ []) ∧
      groupIntoChunks qs m = qss.map joinNl := by
  cases qs with
  | nil =>
    refine ⟨[], rfl, ?_, rfl⟩
    intro g hgm
    exact absurd hgm (List.not_mem_nil g)
  | cons q qs =>
    have h0 : groupIntoChunks (q :: qs) m = groupLoop m q qs := by
      rw [groupIntoChunks, groupLoop, if_neg (fun h => h.2 rfl), if_pos rfl]
    obtain ⟨qss, hj, hne, hgl⟩ := groupLoop_partition m qs [q] (List.cons_ne_nil q [])
      (fun f hf => hc f hf)
    refine ⟨qss, hj, hne, ?_⟩
    rw [h0]
    exact hgl

/-- C2: amended to what the code does — WHEN every question-number group
    of the zero-width split has stripped length over 10 (the filter in
    `_split_by_questions` keeps them all; this also rules out the
    one-character junk groups the splitter cuts out of multi-digit
    question numbers), the chunk planner reproduces every group exactly
    once: the kept fragments are the stripped groups in order (first
    conjunct), and the chunk list is the newline-join of a consecutive
    partition of exactly those fragments — none dropped, none duplicated
    (second conjunct).  Without the length hypothesis a short group is
    silently dropped (see the counterexample). -/
theorem c2_chunk_round_trip_amended (text : Str) (m : Nat)
    (h : ∀ g ∈ reSplitGroups text, 10 < (pstrip g).length) :
    splitByQuestions text = (reSplitGroups text).map pstrip ∧
    ∃ qss : List (List Str),
      qss.flatten = (reSplitGroups text).map pstrip ∧
      (∀ grp ∈ qss, grp ≠ []) ∧
      groupIntoChunks (splitByQuestions text) m = qss.map joinNl := by
  have hsq : splitByQuestions text = (reSplitGroups text).map pstrip := by
    rw [splitByQuestions]
    rw [List.filter_eq_self.mpr]
    intro a ha
    obtain ⟨g, hg, rfl⟩ := List.mem_map.mp ha
    exact decide_eq_true (h g hg)
  refine ⟨hsq, ?_⟩
  rw [hsq]
  apply groupIntoChunks_partition
  intro f hf
  obtain ⟨g, hg, rfl⟩ := List.mem_map.mp hf
  rcases pstrip_clean g with h0 | h0
  · have h1 := h g hg
    rw [h0] at h1
    exact absurd h1 (by decide)
  · exact h0

def c2BadText : Str := litStr ("1. Hi\n2. Explain the water cycle in detail please")

def c2GoodText : Str := litStr ("1. Explain the water cycle\n2. Describe condensation now")

/-- Counterexample to C2 as stated: on `c2BadText` the splitter produces
    the two question-number groups `1. Hi\n` and `2. Explain the water
    cycle in detail please`, but the 10-character filter of
    `_split_by_questions` drops the first group, so the chunk output (a
    single chunk) no longer contains the group `1. Hi` anywhere — the
    group is dropped, not reproduced. -/
theorem c2_chunk_round_trip_counterexample :
    reSplitGroups c2BadText =
      [litStr ("1. Hi\n"), litStr ("2. Explain the water cycle in detail please")] ∧
    splitByQuestions c2BadText =
      [litStr ("2. Explain the water cycle in detail please")] ∧
    groupIntoChunks (splitByQuestions c2BadText) 3500 =
      [litStr ("2. Explain the water cycle in detail please")] ∧
    containsSub (litStr ("1. Hi")) c2BadText = true ∧
    containsSub (litStr ("1. Hi"))
      (joinNl (groupIntoChunks (splitByQuestions c2BadText) 3500)) = false := by
  decide

/-- Witness for the amended C2: both groups of `c2GoodText` are longer
    than 10 characters once stripped, and the round trip applies. -/
theorem c2_chunk_round_trip_amended_witness :
    (∀ g ∈ reSplitGroups c2GoodText, 10 < (pstrip g).length) ∧
    (splitByQuestions c2GoodText = (reSplitGroups c2GoodText).map pstrip ∧
      ∃ qss : List (List Str),
        qss.flatten = (reSplitGroups c2GoodText).map pstrip ∧
        (∀ grp ∈ qss, grp ≠ []) ∧
        groupIntoChunks (splitByQuestions c2GoodText) 3500 = qss.map joinNl) :=
  ⟨by decide, c2_chunk_round_trip_amended c2GoodText 3500 (by decide)⟩
